import Mathlib

set_option maxHeartbeats 1000000

namespace Moltis

/-!
Verification of the moltis WhatsApp channel runtime against its
natural-language specification.  The definitions below are shallow
embeddings of the Rust sources under `crates/whatsapp/src/`; theorems
settle the spec's testable properties against those embeddings.
-/

/-! ### Access policy — `crates/whatsapp/src/access.rs` and `config.rs` -/

/-- DM access policy (`moltis_channels::gating::DmPolicy`). -/
inductive DmPolicy
  | Disabled
  | Open
  | Allowlist
  deriving DecidableEq, Repr

/-- Group access policy (`moltis_channels::gating::GroupPolicy`). -/
inductive GroupPolicy
  | Disabled
  | Open
  | Allowlist
  deriving DecidableEq, Repr

/-- Configuration for a single WhatsApp account (`config.rs`,
`WhatsAppAccountConfig`).  `PathBuf` is embedded as a plain string. -/
structure WhatsAppAccountConfig where
  store_path : Option String
  display_name : Option String
  phone_number : Option String
  paired : Bool
  model : Option String
  model_provider : Option String
  dm_policy : DmPolicy
  group_policy : GroupPolicy
  allowlist : List String
  group_allowlist : List String
  otp_self_approval : Bool
  otp_cooldown_secs : Nat
  deriving DecidableEq, Repr

/-- `impl Default for WhatsAppAccountConfig` (`config.rs`). -/
def WhatsAppAccountConfig.default : WhatsAppAccountConfig where
  store_path := none
  display_name := none
  phone_number := none
  paired := false
  model := none
  model_provider := none
  dm_policy := DmPolicy.Allowlist
  group_policy := GroupPolicy.Open
  allowlist := []
  group_allowlist := []
  otp_self_approval := true
  otp_cooldown_secs := 300

/-- Reason an inbound message was denied (`access.rs`, `AccessDenied`). -/
inductive AccessDenied
  | DmsDisabled
  | NotOnAllowlist
  | GroupsDisabled
  | GroupNotOnAllowlist
  deriving DecidableEq, Repr

/-- User part of a JID: the text before the first `@` (the whole string when
no `@` is present). -/
def jidUser (s : String) : String := (s.splitOn "@").headD s

/-- Modelled from the spec: `gating::is_allowed` comes from the
`moltis_channels` crate, whose source is not included; the spec states that
allowlist membership is "by exact match or JID-user-part match", so an entry
matches an id when it equals the id itself or the id's JID user part. -/
def is_allowed (id : String) (list : List String) : Bool :=
  list.any fun entry => entry == id || entry == jidUser id

/-- `check_dm_access` (`access.rs`). -/
def check_dm_access (config : WhatsAppAccountConfig) (peer_id : String)
    (username : Option String) : Except AccessDenied Unit :=
  match config.dm_policy with
  | DmPolicy.Disabled => Except.error AccessDenied.DmsDisabled
  | DmPolicy.Open => Except.ok ()
  | DmPolicy.Allowlist =>
    if config.allowlist.isEmpty then
      Except.error AccessDenied.NotOnAllowlist
    else if is_allowed peer_id config.allowlist
        || (match username with
            | some u => is_allowed u config.allowlist
            | none => false) then
      Except.ok ()
    else
      Except.error AccessDenied.NotOnAllowlist

/-- `check_group_access` (`access.rs`). -/
def check_group_access (config : WhatsAppAccountConfig)
    (group_id : Option String) : Except AccessDenied Unit :=
  match config.group_policy with
  | GroupPolicy.Disabled => Except.error AccessDenied.GroupsDisabled
  | GroupPolicy.Allowlist =>
    let gid := group_id.getD ""
    if config.group_allowlist.isEmpty
        || !is_allowed gid config.group_allowlist then
      Except.error AccessDenied.GroupNotOnAllowlist
    else
      Except.ok ()
  | GroupPolicy.Open => Except.ok ()

/-- `check_access` (`access.rs`). -/
def check_access (config : WhatsAppAccountConfig) (is_group : Bool)
    (peer_id : String) (username : Option String) (group_id : Option String) :
    Except AccessDenied Unit :=
  if is_group then
    check_group_access config group_id
  else
    check_dm_access config peer_id username

/-- C1: with `dm_policy = Allowlist` and an empty allowlist, `check_access`
denies every DM with `NotOnAllowlist` regardless of peer id and username;
with `group_policy = Allowlist` and an empty group allowlist it denies every
group with `GroupNotOnAllowlist`; and with non-empty allowlists a DM is
allowed exactly when the peer id or the username is a member, a group
exactly when the group id is a member. -/
theorem C1_empty_allowlist_denies (c : WhatsAppAccountConfig) (peer : String)
    (username : Option String) (gid : Option String) :
    (c.dm_policy = DmPolicy.Allowlist → c.allowlist = [] →
      check_access c false peer username gid
        = Except.error AccessDenied.NotOnAllowlist) ∧
    (c.group_policy = GroupPolicy.Allowlist → c.group_allowlist = [] →
      check_access c true peer username gid
        = Except.error AccessDenied.GroupNotOnAllowlist) ∧
    (c.dm_policy = DmPolicy.Allowlist → c.allowlist ≠ [] →
      (check_access c false peer username gid = Except.ok () ↔
        is_allowed peer c.allowlist = true ∨
          ∃ u, username = some u ∧ is_allowed u c.allowlist = true)) ∧
    (c.group_policy = GroupPolicy.Allowlist → c.group_allowlist ≠ [] →
      (check_access c true peer username gid = Except.ok () ↔
        is_allowed (gid.getD "") c.group_allowlist = true)) := by
  refine ⟨?_, ?_, ?_, ?_⟩
  · intro hpol hempty
    simp [check_access, check_dm_access, hpol, hempty]
  · intro hpol hempty
    simp [check_access, check_group_access, hpol, hempty]
  · intro hpol hne
    have hempty : c.allowlist.isEmpty = false := by
      simpa [List.isEmpty_iff] using hne
    cases username with
    | none =>
      by_cases hp : is_allowed peer c.allowlist = true <;>
        simp [check_access, check_dm_access, hpol, hempty, hp]
    | some u =>
      by_cases hp : is_allowed peer c.allowlist = true <;>
        by_cases hu : is_allowed u c.allowlist = true <;>
          simp [check_access, check_dm_access, hpol, hempty, hp, hu]
  · intro hpol hne
    have hempty : c.group_allowlist.isEmpty = false := by
      simpa [List.isEmpty_iff] using hne
    simp only [check_access, check_group_access, hpol, hempty]
    constructor
    · intro h
      by_cases hmem : is_allowed (gid.getD "") c.group_allowlist = true
      · exact hmem
      · simp [hmem] at h
    · intro hmem
      simp [hmem]

/-- Witness for C1 at concrete inputs: the empty-allowlist DM denial, the
empty-group-allowlist denial, and a non-empty allowlist allowing a member. -/
theorem C1_empty_allowlist_denies_witness :
    (check_access { WhatsAppAccountConfig.default with
        dm_policy := DmPolicy.Allowlist, allowlist := [] }
      false "anyone" (some "user") none
        = Except.error AccessDenied.NotOnAllowlist) ∧
    (check_access { WhatsAppAccountConfig.default with
        group_policy := GroupPolicy.Allowlist, group_allowlist := [] }
      true "user" none (some "grp1")
        = Except.error AccessDenied.GroupNotOnAllowlist) ∧
    (check_access { WhatsAppAccountConfig.default with
        dm_policy := DmPolicy.Allowlist, allowlist := ["alice"] }
      false "15551234567@s.whatsapp.net" (some "alice") none
        = Except.ok ()) := by
  refine ⟨?_, ?_, ?_⟩
  · exact (C1_empty_allowlist_denies _ "anyone" (some "user") none).1 rfl rfl
  · exact (C1_empty_allowlist_denies _ "user" none (some "grp1")).2.1 rfl rfl
  · exact ((C1_empty_allowlist_denies _ "15551234567@s.whatsapp.net"
      (some "alice") none).2.2.1 rfl (by decide)).mpr
      (Or.inr ⟨"alice", rfl, by decide⟩)

/-! ### LoopGuard — `crates/whatsapp/src/state.rs` -/

/-- Maximum number of sent message IDs to track (`state.rs`,
`SENT_IDS_CAPACITY`). -/
abbrev SENT_IDS_CAPACITY : Nat := 256

/-- `AccountState::record_sent_id` (`state.rs`): the `VecDeque` is embedded
as a list whose head is the front (oldest entry); `pop_front` on overflow is
`tail`, `push_back` appends. -/
def record_sent_id (ids : List String) (id : String) : List String :=
  let ids := if SENT_IDS_CAPACITY ≤ ids.length then ids.tail else ids
  ids ++ [id]

/-- `AccountState::was_sent_by_us` (`state.rs`): exact string membership. -/
def was_sent_by_us (ids : List String) (id : String) : Bool :=
  ids.any fun sent_id => sent_id == id

/-- Closed form of the ring buffer: folding `record_sent_id` over a list of
ids from the empty buffer keeps exactly the last `SENT_IDS_CAPACITY`
entries. -/
theorem foldl_record_sent_id_eq_drop (ds : List String) :
    ds.foldl record_sent_id [] = ds.drop (ds.length - SENT_IDS_CAPACITY) := by
  induction ds using List.reverseRecOn with
  | nil => rfl
  | append_singleton ds x ih =>
    have hfold : (ds ++ [x]).foldl record_sent_id []
        = record_sent_id (ds.foldl record_sent_id []) x := by
      rw [List.foldl_append]
      rfl
    rw [hfold, ih]
    have hCAP : SENT_IDS_CAPACITY = 256 := rfl
    by_cases hlen : ds.length < SENT_IDS_CAPACITY
    · have h1 : ds.length - SENT_IDS_CAPACITY = 0 := by omega
      have h2 : (ds ++ [x]).length - SENT_IDS_CAPACITY = 0 := by
        simp only [List.length_append, List.length_cons, List.length_nil]
        omega
      rw [h1, h2, List.drop_zero, List.drop_zero]
      have hcap : ¬ SENT_IDS_CAPACITY ≤ ds.length := by omega
      simp [record_sent_id, hcap]
    · have hge : SENT_IDS_CAPACITY ≤ ds.length := Nat.le_of_not_lt hlen
      have hdroplen : (ds.drop (ds.length - SENT_IDS_CAPACITY)).length
          = SENT_IDS_CAPACITY := by
        rw [List.length_drop]
        omega
      have hcap : SENT_IDS_CAPACITY
          ≤ (ds.drop (ds.length - SENT_IDS_CAPACITY)).length := by
        rw [hdroplen]
      simp only [record_sent_id, if_pos hcap, List.tail_drop]
      have h3 : (ds ++ [x]).length - SENT_IDS_CAPACITY
          = ds.length - SENT_IDS_CAPACITY + 1 := by
        rw [List.length_append]
        simp only [List.length_cons, List.length_nil]
        omega
      have hle : ds.length - SENT_IDS_CAPACITY + 1 ≤ ds.length := by omega
      rw [h3, List.drop_append_of_le_length hle]

/-- C4: after any sequence of `record_sent_id` calls the buffer holds at
most 256 entries; recording 257 distinct ids from an empty buffer evicts
exactly the oldest, after which `was_sent_by_us` is false for the evicted
id and true for each of the 256 most recently recorded ids. -/
theorem C4_sent_id_ring_buffer (ds : List String) :
    (ds.foldl record_sent_id []).length ≤ SENT_IDS_CAPACITY ∧
    (ds.length = SENT_IDS_CAPACITY + 1 → ds.Nodup →
      ds.foldl record_sent_id [] = ds.tail ∧
      (∀ d0, ds.head? = some d0 →
        was_sent_by_us (ds.foldl record_sent_id []) d0 = false) ∧
      (∀ id ∈ ds.tail,
        was_sent_by_us (ds.foldl record_sent_id []) id = true)) := by
  have hCAP : SENT_IDS_CAPACITY = 256 := rfl
  constructor
  · rw [foldl_record_sent_id_eq_drop, List.length_drop]
    omega
  · intro hlen hnodup
    have htail : ds.foldl record_sent_id [] = ds.tail := by
      rw [foldl_record_sent_id_eq_drop]
      have : ds.length - SENT_IDS_CAPACITY = 1 := by omega
      rw [this]
      exact List.drop_one ds
    refine ⟨htail, ?_, ?_⟩
    · intro d0 hd0
      rw [htail]
      cases ds with
      | nil => simp at hd0
      | cons x t =>
        have hx : x = d0 := by simpa using hd0
        subst hx
        have hnotmem : x ∉ t := (List.nodup_cons.mp hnodup).1
        simp only [List.tail_cons, was_sent_by_us, List.any_eq_false,
          beq_iff_eq]
        intro a ha hax
        exact hnotmem (hax ▸ ha)
    · intro id hid
      rw [htail]
      simp only [was_sent_by_us, List.any_eq_true, beq_iff_eq]
      exact ⟨id, hid, rfl⟩

/-- Witness for C4's conditional part: 257 distinct ids. -/
theorem C4_sent_id_ring_buffer_witness :
    ∃ ds : List String, ds.length = SENT_IDS_CAPACITY + 1 ∧ ds.Nodup ∧
      ds.foldl record_sent_id [] = ds.tail := by
  have hinj : Function.Injective
      (fun n : Nat => String.mk (List.replicate n 'a')) := by
    intro a b hab
    have h2 : List.replicate a 'a' = List.replicate b 'a' :=
      congrArg String.data hab
    have h3 := congrArg List.length h2
    simpa using h3
  have hnodup : ((List.range (SENT_IDS_CAPACITY + 1)).map
      (fun n : Nat => String.mk (List.replicate n 'a'))).Nodup :=
    List.Nodup.map hinj (List.nodup_range _)
  refine ⟨(List.range (SENT_IDS_CAPACITY + 1)).map
      (fun n : Nat => String.mk (List.replicate n 'a')), by simp, hnodup, ?_⟩
  exact ((C4_sent_id_ring_buffer _).2 (by simp) hnodup).1

/-- Invisible Unicode watermark appended to every bot-sent message
(`state.rs`, `BOT_WATERMARK`): ZWJ, ZWNJ, ZWJ, ZWNJ. -/
def BOT_WATERMARK : String := "\u200D\u200C\u200D\u200C"

/-- `waproto::whatsapp::message::ExtendedTextMessage`, reduced to the one
field the handlers read. -/
structure ExtendedTextMessage where
  text : Option String
  deriving DecidableEq, Repr

/-- `waproto::whatsapp::message::ImageMessage`, reduced to the fields the
handlers read. -/
structure ImageMessage where
  caption : Option String
  mimetype : Option String
  deriving DecidableEq, Repr

/-- `waproto::whatsapp::message::AudioMessage`, reduced to the fields the
handlers read. -/
structure AudioMessage where
  ptt : Option Bool
  mimetype : Option String
  deriving DecidableEq, Repr

/-- `waproto::whatsapp::message::VideoMessage`, reduced to the fields the
handlers read; the thumbnail is a byte string. -/
structure VideoMessage where
  caption : Option String
  jpeg_thumbnail : Option (List Nat)
  deriving DecidableEq, Repr

/-- `waproto::whatsapp::message::DocumentMessage`, reduced to the fields
the handlers read. -/
structure DocumentMessage where
  caption : Option String
  file_name : Option String
  mimetype : Option String
  deriving DecidableEq, Repr

/-- `waproto::whatsapp::message::LocationMessage`.  The floating-point
coordinate fields are omitted: no claim depends on them. -/
structure LocationMessage where
  is_live : Option Bool
  deriving DecidableEq, Repr

/-- `waproto::whatsapp::message::LiveLocationMessage` (coordinates omitted
as above). -/
structure LiveLocationMessage where
  deriving DecidableEq, Repr

/-- `waproto::whatsapp::Message`, reduced to the fields the WhatsApp
handlers read. -/
structure WaMessage where
  conversation : Option String
  extendedTextMessage : Option ExtendedTextMessage
  imageMessage : Option ImageMessage
  audioMessage : Option AudioMessage
  videoMessage : Option VideoMessage
  documentMessage : Option DocumentMessage
  locationMessage : Option LocationMessage
  liveLocationMessage : Option LiveLocationMessage
  deriving DecidableEq, Repr

/-- `watermark_message` (`state.rs`): append the watermark to the
conversation text and to the extended text, when present. -/
def watermark_message (msg : WaMessage) : WaMessage :=
  let msg1 :=
    match msg.conversation with
    | some text => { msg with conversation := some (text ++ BOT_WATERMARK) }
    | none => msg
  match msg1.extendedTextMessage with
  | some ext =>
    match ext.text with
    | some text =>
      let ext2 : ExtendedTextMessage :=
        { ext with text := some (text ++ BOT_WATERMARK) }
      { msg1 with extendedTextMessage := some ext2 }
    | none => msg1
  | none => msg1

/-- `has_bot_watermark` (`state.rs`): Rust `str::ends_with` is suffix
matching, embedded at the character level (`BOT_WATERMARK` is valid UTF-8,
so byte-suffix and character-suffix agree). -/
def has_bot_watermark (text : String) : Bool :=
  BOT_WATERMARK.data.isSuffixOf text.data

/-- C5: watermarking any present text yields a text that
`has_bot_watermark` detects; `has_bot_watermark` holds exactly on texts
ending with the full marker (so partial or misordered marker runs, or a
marker not at the end, are not detected); and a message without text
fields is left unchanged. -/
theorem C5_watermark_roundtrip :
    (∀ msg t, msg.conversation = some t →
      (watermark_message msg).conversation = some (t ++ BOT_WATERMARK) ∧
      has_bot_watermark (t ++ BOT_WATERMARK) = true) ∧
    (∀ msg ext t, msg.extendedTextMessage = some ext → ext.text = some t →
      ∃ ext2, (watermark_message msg).extendedTextMessage = some ext2 ∧
        ext2.text = some (t ++ BOT_WATERMARK)) ∧
    (∀ t, has_bot_watermark t = true ↔ ∃ s, t = s ++ BOT_WATERMARK) ∧
    has_bot_watermark "\u200D\u200C\u200D" = false ∧
    has_bot_watermark "\u200C\u200D\u200C\u200D" = false ∧
    has_bot_watermark ("\u200D\u200C\u200D\u200C" ++ "x") = false ∧
    (∀ msg, msg.conversation = none →
      (∀ ext, msg.extendedTextMessage = some ext → ext.text = none) →
      watermark_message msg = msg) := by
  have hsuffix : ∀ t : String, has_bot_watermark (t ++ BOT_WATERMARK) = true := by
    intro t
    simp only [has_bot_watermark, String.data_append,
      List.isSuffixOf_iff_suffix]
    exact List.suffix_append t.data BOT_WATERMARK.data
  refine ⟨?_, ?_, ?_, by decide, by decide, by decide, ?_⟩
  · intro msg t hconv
    refine ⟨?_, hsuffix t⟩
    simp only [watermark_message, hconv]
    cases hext : msg.extendedTextMessage with
    | none => simp
    | some ext =>
      cases htext : ext.text with
      | none => simp [htext]
      | some t2 => simp [htext]
  · intro msg ext t hext htext
    cases hconv : msg.conversation with
    | none =>
      simp only [watermark_message, hconv, hext, htext]
      exact ⟨_, rfl, rfl⟩
    | some t0 =>
      simp only [watermark_message, hconv, hext, htext]
      exact ⟨_, rfl, rfl⟩
  · intro t
    constructor
    · intro h
      simp only [has_bot_watermark, List.isSuffixOf_iff_suffix] at h
      obtain ⟨l, hl⟩ := h
      refine ⟨⟨l⟩, ?_⟩
      apply String.ext
      simpa [String.data_append] using hl.symm
    · rintro ⟨s, rfl⟩
      exact hsuffix s
  · intro msg hconv hext
    cases he : msg.extendedTextMessage with
    | none => simp [watermark_message, hconv, he]
    | some ext =>
      have : ext.text = none := hext ext he
      simp [watermark_message, hconv, he, this]

/-- Witness for C5 at concrete inputs. -/
theorem C5_watermark_roundtrip_witness :
    (watermark_message
      { conversation := some "Hello",
        extendedTextMessage := none, imageMessage := none,
        audioMessage := none, videoMessage := none, documentMessage := none,
        locationMessage := none, liveLocationMessage := none }).conversation
      = some ("Hello" ++ BOT_WATERMARK) ∧
    has_bot_watermark ("Hello" ++ BOT_WATERMARK) = true := by
  have h := C5_watermark_roundtrip.1
    { conversation := some "Hello", extendedTextMessage := none,
      imageMessage := none, audioMessage := none, videoMessage := none,
      documentMessage := none, locationMessage := none,
      liveLocationMessage := none }
    "Hello" rfl
  exact ⟨h.1, h.2⟩

/-! ### Message classification — `crates/whatsapp/src/handlers.rs` -/

/-- `moltis_channels::ChannelMessageKind`. -/
inductive ChannelMessageKind
  | Text
  | Photo
  | Voice
  | Audio
  | Video
  | Document
  | Location
  | Other
  deriving DecidableEq, Repr

/-- `classify_message` (`handlers.rs`): media kinds take priority over
text. -/
def classify_message (msg : WaMessage) (text : String) : ChannelMessageKind :=
  if msg.imageMessage.isSome then
    ChannelMessageKind.Photo
  else if msg.audioMessage.isSome then
    if (match msg.audioMessage with
        | some a => a.ptt.getD false
        | none => false) then
      ChannelMessageKind.Voice
    else
      ChannelMessageKind.Audio
  else if msg.videoMessage.isSome then
    ChannelMessageKind.Video
  else if msg.documentMessage.isSome then
    ChannelMessageKind.Document
  else if msg.locationMessage.isSome || msg.liveLocationMessage.isSome then
    ChannelMessageKind.Location
  else if !text.isEmpty then
    ChannelMessageKind.Text
  else
    ChannelMessageKind.Other

/-- C6: the fixed classification priority — image beats everything
(including non-empty caption text), then audio (push-to-talk flag deciding
Voice vs Audio), then video, document, location, non-empty text, and
finally Other. -/
theorem C6_classify_priority (msg : WaMessage) (text : String) :
    (msg.imageMessage.isSome = true →
      classify_message msg text = ChannelMessageKind.Photo) ∧
    (msg.imageMessage = none → ∀ a, msg.audioMessage = some a →
      classify_message msg text =
        (if a.ptt.getD false then ChannelMessageKind.Voice
         else ChannelMessageKind.Audio)) ∧
    (msg.imageMessage = none → msg.audioMessage = none →
      msg.videoMessage.isSome = true →
      classify_message msg text = ChannelMessageKind.Video) ∧
    (msg.imageMessage = none → msg.audioMessage = none →
      msg.videoMessage = none → msg.documentMessage.isSome = true →
      classify_message msg text = ChannelMessageKind.Document) ∧
    (msg.imageMessage = none → msg.audioMessage = none →
      msg.videoMessage = none → msg.documentMessage = none →
      (msg.locationMessage.isSome || msg.liveLocationMessage.isSome) = true →
      classify_message msg text = ChannelMessageKind.Location) ∧
    (msg.imageMessage = none → msg.audioMessage = none →
      msg.videoMessage = none → msg.documentMessage = none →
      msg.locationMessage = none → msg.liveLocationMessage = none →
      text.isEmpty = false →
      classify_message msg text = ChannelMessageKind.Text) ∧
    (msg.imageMessage = none → msg.audioMessage = none →
      msg.videoMessage = none → msg.documentMessage = none →
      msg.locationMessage = none → msg.liveLocationMessage = none →
      text.isEmpty = true →
      classify_message msg text = ChannelMessageKind.Other) := by
  refine ⟨?_, ?_, ?_, ?_, ?_, ?_, ?_⟩
  · intro h
    simp [classify_message, h]
  · intro himg a haud
    by_cases hptt : a.ptt.getD false <;>
      simp [classify_message, himg, haud, hptt]
  · intro himg haud hvid
    simp [classify_message, himg, haud, hvid]
  · intro himg haud hvid hdoc
    simp [classify_message, himg, haud, hvid, hdoc]
  · intro himg haud hvid hdoc hloc
    simp [classify_message, himg, haud, hvid, hdoc, hloc]
  · intro himg haud hvid hdoc hloc hlive htext
    simp [classify_message, himg, haud, hvid, hdoc, hloc, hlive, htext]
  · intro himg haud hvid hdoc hloc hlive htext
    simp [classify_message, himg, haud, hvid, hdoc, hloc, hlive, htext]

/-- Witness for C6: a captioned image with non-empty text classifies as
Photo, never Text. -/
theorem C6_classify_priority_witness :
    classify_message
      { conversation := none,
        extendedTextMessage := none,
        imageMessage := some ({ caption := some "look", mimetype := none }),
        audioMessage := none, videoMessage := none, documentMessage := none,
        locationMessage := none, liveLocationMessage := none } "look"
      = ChannelMessageKind.Photo :=
  (C6_classify_priority _ "look").1 rfl

/-! ### OTP self-approval — spec §4.4 (module `otp` of the whatsapp crate) -/

/-- Association-list lookup: first value bound to the key. -/
def alGet {κ : Type} [DecidableEq κ] (l : List (κ × α)) (k : κ) : Option α :=
  (l.find? fun p => p.1 == k).map (·.2)

/-- Association-list insert/replace. -/
def alPut {κ : Type} [DecidableEq κ] (l : List (κ × α)) (k : κ) (v : α) :
    List (κ × α) :=
  (k, v) :: l.filter fun p => !(p.1 == k)

/-- Association-list removal of every binding of the key. -/
def alRemove {κ : Type} [DecidableEq κ] (l : List (κ × α)) (k : κ) :
    List (κ × α) :=
  l.filter fun p => !(p.1 == k)

theorem alGet_alPut_self {κ : Type} [DecidableEq κ] (l : List (κ × α))
    (k : κ) (v : α) : alGet (alPut l k v) k = some v := by
  simp [alGet, alPut, List.find?]

theorem alGet_alRemove_self {κ : Type} [DecidableEq κ] (l : List (κ × α))
    (k : κ) : alGet (alRemove l k) k = none := by
  have h : (alRemove l k).find? (fun p => p.1 == k) = none := by
    rw [List.find?_eq_none]
    intro p hp
    have := (List.mem_filter.mp hp).2
    simpa using this
  simp [alGet, h]

theorem alGet_alPut_of_ne {κ : Type} [DecidableEq κ] (l : List (κ × α))
    (k k2 : κ) (v : α) (h : k2 ≠ k) :
    alGet (alPut l k v) k2 = alGet (alRemove l k) k2 := by
  simp only [alGet, alPut, alRemove, List.find?]
  have : (k == k2) = false := by simpa [beq_iff_eq] using fun e => h e.symm
  simp [this]

/-- Result of `OtpState::initiate` (`otp.rs`, `OtpInitResult`). -/
inductive OtpInitResult
  | Created (code : String)
  | AlreadyPending
  | LockedOut
  deriving DecidableEq, Repr

/-- Result of `OtpState::verify` (`otp.rs`, `OtpVerifyResult`). -/
inductive OtpVerifyResult
  | Approved
  | WrongCode (attempts_left : Nat)
  | LockedOut
  | Expired
  | NoPending
  deriving DecidableEq, Repr

/-- Modelled from the spec: `crates/whatsapp/src/otp.rs` is declared
(`pub mod otp`) but its source is not included.  Per spec §3 an
`OtpChallenge` is a per-peer record with a 6-digit numeric code, a
5-minute expiry, an attempt counter and display metadata.  Time is an
explicit timestamp in seconds. -/
structure OtpChallenge where
  code : String
  expires_at : Nat
  attempts : Nat
  username : Option String
  display_name : Option String
  deriving DecidableEq, Repr

/-- Challenge expiry: 5 minutes (spec §4.4). -/
abbrev OTP_EXPIRY_SECS : Nat := 300

/-- Failed attempts before lockout (spec §4.4). -/
abbrev OTP_MAX_ATTEMPTS : Nat := 3

/-- Modelled from the spec: the OTP challenge state of one account —
pending challenges and post-lockout cooldown deadlines, both keyed by
peer id, plus the configured cooldown duration. -/
structure OtpState where
  cooldown_secs : Nat
  challenges : List (String × OtpChallenge)
  cooldowns : List (String × Nat)
  deriving DecidableEq, Repr

/-- `OtpState::new(cooldown_secs)`. -/
def OtpState.new (cooldown_secs : Nat) : OtpState :=
  { cooldown_secs := cooldown_secs, challenges := [], cooldowns := [] }

/-- `OtpState::has_pending` (spec §4.4: read-only introspection). -/
def OtpState.has_pending (st : OtpState) (peer : String) : Bool :=
  (alGet st.challenges peer).isSome

/-- Modelled from the spec (§4.4 `initiate`): `AlreadyPending` when a
non-expired challenge exists, `LockedOut` during a post-lockout cooldown
window, otherwise a fresh challenge with attempt counter 0 and a 5-minute
expiry.  The randomly generated 6-digit code is passed in as
`fresh_code`. -/
def OtpState.initiate (st : OtpState) (now : Nat) (fresh_code : String)
    (peer : String) (username display_name : Option String) :
    OtpInitResult × OtpState :=
  let pending : Bool :=
    match alGet st.challenges peer with
    | some ch => now < ch.expires_at
    | none => false
  if pending then
    (OtpInitResult.AlreadyPending, st)
  else
    let locked : Bool :=
      match alGet st.cooldowns peer with
      | some deadline => now < deadline
      | none => false
    if locked then
      (OtpInitResult.LockedOut, st)
    else
      let ch : OtpChallenge :=
        { code := fresh_code, expires_at := now + OTP_EXPIRY_SECS,
          attempts := 0, username := username, display_name := display_name }
      (OtpInitResult.Created fresh_code,
        { st with challenges := alPut st.challenges peer ch })

/-- Modelled from the spec (§4.4 `verify`): `NoPending` without a
challenge; `Expired` clears an expired challenge; a matching code clears
the challenge and approves; a mismatch increments the attempt counter,
locking out (clearing the challenge, starting a cooldown of
`cooldown_secs`) on the third failure and otherwise reporting the
remaining attempts. -/
def OtpState.verify (st : OtpState) (now : Nat) (peer candidate : String) :
    OtpVerifyResult × OtpState :=
  match alGet st.challenges peer with
  | none => (OtpVerifyResult.NoPending, st)
  | some ch =>
    if ch.expires_at ≤ now then
      (OtpVerifyResult.Expired,
        { st with challenges := alRemove st.challenges peer })
    else if candidate == ch.code then
      (OtpVerifyResult.Approved,
        { st with challenges := alRemove st.challenges peer })
    else
      let attempts := ch.attempts + 1
      if OTP_MAX_ATTEMPTS ≤ attempts then
        (OtpVerifyResult.LockedOut,
          { st with
              challenges := alRemove st.challenges peer,
              cooldowns := alPut st.cooldowns peer (now + st.cooldown_secs) })
      else
        let ch2 : OtpChallenge := { ch with attempts := attempts }
        (OtpVerifyResult.WrongCode (OTP_MAX_ATTEMPTS - attempts),
          { st with challenges := alPut st.challenges peer ch2 })

/-- A wrong verify below the attempt limit: counter bumps, challenge
stays. -/
theorem verify_wrong_step (st : OtpState) (now : Nat) (peer c : String)
    (ch : OtpChallenge) (hch : alGet st.challenges peer = some ch)
    (hexp : now < ch.expires_at) (hne : c ≠ ch.code)
    (hlt : ch.attempts + 1 < OTP_MAX_ATTEMPTS) :
    st.verify now peer c =
      (OtpVerifyResult.WrongCode (OTP_MAX_ATTEMPTS - (ch.attempts + 1)),
        { st with challenges := alPut st.challenges peer ({ ch with attempts := ch.attempts + 1 }) }) := by
  have h1 : ¬ ch.expires_at ≤ now := by omega
  have h2 : (c == ch.code) = false := by simpa [beq_iff_eq] using hne
  have h3 : ¬ OTP_MAX_ATTEMPTS ≤ ch.attempts + 1 := by omega
  simp [OtpState.verify, hch, h1, h2, h3]

/-- The third wrong verify: challenge cleared, cooldown started. -/
theorem verify_lockout_step (st : OtpState) (now : Nat) (peer c : String)
    (ch : OtpChallenge) (hch : alGet st.challenges peer = some ch)
    (hexp : now < ch.expires_at) (hne : c ≠ ch.code)
    (hge : OTP_MAX_ATTEMPTS ≤ ch.attempts + 1) :
    st.verify now peer c =
      (OtpVerifyResult.LockedOut,
        { st with challenges := alRemove st.challenges peer, cooldowns := alPut st.cooldowns peer (now + st.cooldown_secs) }) := by
  have h1 : ¬ ch.expires_at ≤ now := by omega
  have h2 : (c == ch.code) = false := by simpa [beq_iff_eq] using hne
  simp [OtpState.verify, hch, h1, h2, hge]

/-- C3: from a pending non-expired challenge with a fresh attempt counter,
three wrong codes yield `WrongCode 2`, `WrongCode 1`, `LockedOut` — the
lockout clearing the challenge and starting a cooldown of `cooldown_secs`
— and an `initiate` before that cooldown elapses returns `LockedOut`;
furthermore an `initiate` that creates a challenge followed immediately by
a second `initiate` for the same peer returns `AlreadyPending` with the
state unchanged (no new code generated). -/
theorem C3_otp_lockout_flow :
    (∀ (st : OtpState) (peer : String) (ch : OtpChallenge)
        (t1 t2 t3 : Nat) (c1 c2 c3 : String),
      alGet st.challenges peer = some ch → ch.attempts = 0 →
      t1 < ch.expires_at → t2 < ch.expires_at → t3 < ch.expires_at →
      c1 ≠ ch.code → c2 ≠ ch.code → c3 ≠ ch.code →
      (st.verify t1 peer c1).1 = OtpVerifyResult.WrongCode 2 ∧
      ((st.verify t1 peer c1).2.verify t2 peer c2).1
        = OtpVerifyResult.WrongCode 1 ∧
      (((st.verify t1 peer c1).2.verify t2 peer c2).2.verify t3 peer c3).1
        = OtpVerifyResult.LockedOut ∧
      alGet ((((st.verify t1 peer c1).2.verify t2 peer c2).2.verify
        t3 peer c3).2).challenges peer = none ∧
      alGet ((((st.verify t1 peer c1).2.verify t2 peer c2).2.verify
        t3 peer c3).2).cooldowns peer = some (t3 + st.cooldown_secs) ∧
      (∀ (t4 : Nat) (fresh : String) (u d : Option String),
        t4 < t3 + st.cooldown_secs →
        (((((st.verify t1 peer c1).2.verify t2 peer c2).2.verify
          t3 peer c3).2).initiate t4 fresh peer u d).1
            = OtpInitResult.LockedOut)) ∧
    (∀ (st : OtpState) (now : Nat) (fresh peer : String)
        (u d : Option String) (code : String) (st1 : OtpState),
      st.initiate now fresh peer u d = (OtpInitResult.Created code, st1) →
      ∀ (t : Nat) (fresh2 : String) (u2 d2 : Option String),
        t < now + OTP_EXPIRY_SECS →
        st1.initiate t fresh2 peer u2 d2
          = (OtpInitResult.AlreadyPending, st1)) := by
  constructor
  · intro st peer ch t1 t2 t3 c1 c2 c3 hch hatt hx1 hx2 hx3 hn1 hn2 hn3
    have h1 := verify_wrong_step st t1 peer c1 ch hch hx1 hn1
      (by rw [hatt]; decide)
    set ch1 : OtpChallenge := { ch with attempts := ch.attempts + 1 } with hch1def
    have hch1 : alGet (st.verify t1 peer c1).2.challenges peer = some ch1 := by
      rw [h1]
      exact alGet_alPut_self _ _ _
    have h2 := verify_wrong_step (st.verify t1 peer c1).2 t2 peer c2 ch1 hch1
      (by simpa [hch1def] using hx2) (by simpa [hch1def] using hn2)
      (by simp only [hch1def, hatt]; decide)
    set ch2 : OtpChallenge := { ch1 with attempts := ch1.attempts + 1 }
      with hch2def
    have hch2 : alGet ((st.verify t1 peer c1).2.verify
        t2 peer c2).2.challenges peer = some ch2 := by
      rw [h2]
      exact alGet_alPut_self _ _ _
    have h3 := verify_lockout_step ((st.verify t1 peer c1).2.verify
        t2 peer c2).2 t3 peer c3 ch2 hch2
      (by simpa [hch2def, hch1def] using hx3)
      (by simpa [hch2def, hch1def] using hn3)
      (by simp only [hch2def, hch1def, hatt]; decide)
    have hr1 : (st.verify t1 peer c1).1 = OtpVerifyResult.WrongCode 2 := by
      rw [h1]
      simp [hatt, OTP_MAX_ATTEMPTS]
    have hr2 : ((st.verify t1 peer c1).2.verify t2 peer c2).1
        = OtpVerifyResult.WrongCode 1 := by
      rw [h2]
      simp [hch1def, hatt, OTP_MAX_ATTEMPTS]
    have hcool2 : ((st.verify t1 peer c1).2.verify t2 peer c2).2.cooldowns
        = st.cooldowns := by
      rw [h2, h1]
    have hcd2 : ((st.verify t1 peer c1).2.verify t2 peer c2).2.cooldown_secs
        = st.cooldown_secs := by
      rw [h2, h1]
    refine ⟨hr1, hr2, by rw [h3], ?_, ?_, ?_⟩
    · rw [h3]
      exact alGet_alRemove_self _ _
    · rw [h3]
      simp only [hcool2, hcd2]
      exact alGet_alPut_self _ _ _
    · intro t4 fresh u d ht4
      rw [h3]
      simp only [OtpState.initiate, alGet_alRemove_self, hcool2, hcd2,
        alGet_alPut_self]
      simp [ht4]
  · intro st now fresh peer u d code st1 hinit t fresh2 u2 d2 ht
    simp only [OtpState.initiate] at hinit
    split at hinit
    · exact absurd (congrArg Prod.fst hinit) (by simp)
    · split at hinit
      · exact absurd (congrArg Prod.fst hinit) (by simp)
      · rw [Prod.mk.injEq] at hinit
        obtain ⟨hcode, hst1⟩ := hinit
        subst hst1
        simp only [OtpState.initiate, alGet_alPut_self]
        simp [ht]

/-- A concrete pending challenge used by the OTP witnesses. -/
def otpChallengeExample : OtpChallenge :=
  { code := "123456", expires_at := 1000, attempts := 0,
    username := none, display_name := none }

/-- A concrete OTP state with one pending challenge for peer `"peer"`. -/
def otpStateExample : OtpState :=
  { cooldown_secs := 300, challenges := [("peer", otpChallengeExample)],
    cooldowns := [] }

/-- Witness for C3 at a concrete pending challenge and a concrete
initiate/initiate pair. -/
theorem C3_otp_lockout_flow_witness :
    (otpStateExample.verify 10 "peer" "000000").1
      = OtpVerifyResult.WrongCode 2 ∧
    ((OtpState.new 300).initiate 0 "654321" "p" none none).2.initiate
        5 "999999" "p" none none
      = (OtpInitResult.AlreadyPending,
          ((OtpState.new 300).initiate 0 "654321" "p" none none).2) := by
  constructor
  · exact (C3_otp_lockout_flow.1 otpStateExample "peer" otpChallengeExample
      10 20 30 "000000" "000000" "000000" rfl rfl (by decide) (by decide)
      (by decide) (by decide) (by decide) (by decide)).1
  · exact C3_otp_lockout_flow.2 (OtpState.new 300) 0 "654321" "p" none none
      "654321" (((OtpState.new 300).initiate 0 "654321" "p" none none).2)
      rfl 5 "999999" none none (by decide)

/-! ### OTP message flow — `handle_otp_flow` (`handlers.rs`) -/

/-- Modelled from the spec: `OTP_CHALLENGE_MSG` is the fixed challenge
prompt defined in the missing `otp.rs`; its exact wording is irrelevant to
every claim. -/
def OTP_CHALLENGE_MSG : String :=
  "A verification code was generated. Enter the 6-digit code to get access."

/-- Rust `str::trim`: strip whitespace from both ends, embedded at the
character level (the whitespace predicate is `Char.isWhitespace`). -/
def rust_trim (s : String) : String :=
  ⟨((s.data.dropWhile Char.isWhitespace).reverse.dropWhile
      Char.isWhitespace).reverse⟩

/-- Observable outcome of one `handle_otp_flow` call (`handlers.rs`):
which candidate code (if any) was submitted to `verify`, whether
`initiate` was called, the reply texts sent back, and the OTP state
afterwards. -/
structure OtpFlowResult where
  verified_with : Option String
  initiated : Bool
  replies : List String
  otp : OtpState
  deriving DecidableEq, Repr

/-- `handle_otp_flow` (`handlers.rs`): with a pending challenge, only a
trimmed body of exactly six bytes that are all ASCII digits is submitted
to `verify` (anything else is silently ignored); without a pending
challenge, `initiate` is called and its result is reported back.  Rust's
`str::len` is the UTF-8 byte length and `char::is_ascii_digit` matches
`Char.isDigit`. -/
def handle_otp_flow (otp : OtpState) (now : Nat) (fresh_code : String)
    (peer : String) (username sender_name : Option String) (body : String) :
    OtpFlowResult :=
  if otp.has_pending peer then
    let trimmed := rust_trim body
    if trimmed.utf8ByteSize != 6 || !(trimmed.data.all Char.isDigit) then
      { verified_with := none, initiated := false, replies := [], otp := otp }
    else
      let vr := otp.verify now peer trimmed
      match vr.1 with
      | OtpVerifyResult.Approved =>
        { verified_with := some trimmed, initiated := false,
          replies := ["Access granted! You can now use this bot."],
          otp := vr.2 }
      | OtpVerifyResult.WrongCode attempts_left =>
        { verified_with := some trimmed, initiated := false,
          replies := ["Wrong code. " ++ toString attempts_left ++ " attempt"
            ++ (if attempts_left == 1 then "" else "s") ++ " remaining."],
          otp := vr.2 }
      | OtpVerifyResult.LockedOut =>
        { verified_with := some trimmed, initiated := false,
          replies := ["Too many failed attempts. Please try again later."],
          otp := vr.2 }
      | OtpVerifyResult.Expired =>
        { verified_with := some trimmed, initiated := false,
          replies :=
            ["Your code has expired. Please send any message to get a new code."],
          otp := vr.2 }
      | OtpVerifyResult.NoPending =>
        { verified_with := some trimmed, initiated := false, replies := [],
          otp := vr.2 }
  else
    let ir := otp.initiate now fresh_code peer username sender_name
    match ir.1 with
    | OtpInitResult.Created _ =>
      { verified_with := none, initiated := true,
        replies := [OTP_CHALLENGE_MSG], otp := ir.2 }
    | OtpInitResult.AlreadyPending =>
      { verified_with := none, initiated := true,
        replies := [OTP_CHALLENGE_MSG], otp := ir.2 }
    | OtpInitResult.LockedOut =>
      { verified_with := none, initiated := true,
        replies := ["Too many failed attempts. Please try again later."],
        otp := ir.2 }

/-- C9: while a challenge is pending, a body whose trimmed text is not
exactly 6 ASCII digits is silently ignored — `verify` is not called, no
reply is sent and the OTP state is unchanged; and whenever a candidate is
submitted to `verify` it is the trimmed body and is exactly 6 ASCII
digits. -/
theorem C9_pending_non_code_ignored (otp : OtpState) (now : Nat)
    (fresh peer : String) (u sn : Option String) (body : String) :
    (otp.has_pending peer = true →
      ((rust_trim body).utf8ByteSize != 6
        || !((rust_trim body).data.all Char.isDigit)) = true →
      handle_otp_flow otp now fresh peer u sn body
        = { verified_with := none, initiated := false, replies := [],
            otp := otp }) ∧
    (∀ c, (handle_otp_flow otp now fresh peer u sn body).verified_with
        = some c →
      c = rust_trim body ∧ c.utf8ByteSize = 6 ∧ c.data.all Char.isDigit = true) := by
  constructor
  · intro hp hbad
    simp [handle_otp_flow, hp, hbad]
  · intro c hc
    by_cases hp : otp.has_pending peer = true
    · by_cases hbad : ((rust_trim body).utf8ByteSize != 6
          || !((rust_trim body).data.all Char.isDigit)) = true
      · simp [handle_otp_flow, hp, hbad] at hc
      · have hgood : (rust_trim body).utf8ByteSize = 6
            ∧ (rust_trim body).data.all Char.isDigit = true := by
          have h := hbad
          simp only [Bool.or_eq_true, bne_iff_ne, Bool.not_eq_true',
            not_or, Decidable.not_not] at h
          exact ⟨h.1, by simpa using h.2⟩
        have hbad2 : ((rust_trim body).utf8ByteSize != 6
            || !((rust_trim body).data.all Char.isDigit)) = false := by
          simp [hgood.1, hgood.2]
        rcases hv : (otp.verify now peer (rust_trim body)).1 with _ | n | _ | _ | _ <;>
          · simp [handle_otp_flow, hp, hbad2, hv] at hc
            exact ⟨hc.symm, hc ▸ hgood.1, hc ▸ hgood.2⟩
    · have hp2 : otp.has_pending peer = false := by
        simpa using hp
      rcases hi : (otp.initiate now fresh peer u sn).1 with _ | _ | _ <;>
        simp [handle_otp_flow, hp2, hi] at hc

/-- Witness for C9: a pending challenge plus a non-code body. -/
theorem C9_pending_non_code_ignored_witness :
    handle_otp_flow otpStateExample 10 "999999" "peer" none none " hi "
      = { verified_with := none, initiated := false, replies := [],
          otp := otpStateExample } :=
  (C9_pending_non_code_ignored otpStateExample 10 "999999" "peer"
    none none " hi ").1 (by decide) (by decide)

/-! ### Inbound message gate — `handle_message` (`handlers.rs`) -/

/-- A WhatsApp JID (`wacore_binary::jid::Jid`), reduced to its user and
server parts. -/
structure Jid where
  user : String
  server : String
  deriving DecidableEq, Repr

/-- `JidExt::is_same_user_as` from the external `wacore_binary` crate: two
JIDs resolve to the same user when their user parts agree. -/
def Jid.is_same_user_as (a b : Jid) : Bool := a.user == b.user

/-- A JID rendered as `user@server` (its `Display` impl). -/
def Jid.render (j : Jid) : String := j.user ++ "@" ++ j.server

/-- `wacore::types::message::MessageSource`, reduced to the fields the
handlers read. -/
structure MessageSource where
  chat : Jid
  sender : Jid
  is_from_me : Bool
  is_group : Bool
  deriving DecidableEq, Repr

/-- `wacore::types::message::MessageInfo`, reduced to the fields the
handlers read. -/
structure MessageInfo where
  id : String
  source : MessageSource
  push_name : String
  deriving DecidableEq, Repr

/-- `is_owner_user` (`handlers.rs`): the JID matches the account's own PN
or LID identity. -/
def is_owner_user (jid : Jid) (own_pn own_lid : Option Jid) : Bool :=
  (match own_pn with
   | some pn => pn.is_same_user_as jid
   | none => false)
  || (match own_lid with
      | some lid => lid.is_same_user_as jid
      | none => false)

/-- Text extraction used twice by `handle_message` (`handlers.rs`):
conversation text, else extended text, else the empty string. -/
def extract_text (msg : WaMessage) : String :=
  (msg.conversation.orElse
    (fun _ => msg.extendedTextMessage.bind ExtendedTextMessage.text)).getD ""

/-- Outcome of the front of `handle_message`: either the message is
dropped as a self-echo, or it is processed, carrying the owner-self-chat
flag and the access result the rest of the handler uses. -/
inductive MsgGateOutcome
  | dropped
  | processed (owner_self_chat : Bool) (access : Except AccessDenied Unit)
  deriving Repr

/-- The self-chat / loop-guard / access-control front of `handle_message`
(`handlers.rs` lines 114-205), as a function of the account's own PN/LID
identities, the recent-sent-id buffer and the config. -/
def handle_message_gate (own_pn own_lid : Option Jid)
    (sent_ids : List String) (config : WhatsAppAccountConfig)
    (msg : WaMessage) (info : MessageInfo) : MsgGateOutcome :=
  let sender_jid := info.source.sender
  let chat_jid := info.source.chat
  let peer_id := sender_jid.render
  let chat_id := chat_jid.render
  let username := sender_jid.user
  let is_self_chat := is_owner_user chat_jid own_pn own_lid
  let sender_is_owner := is_owner_user sender_jid own_pn own_lid
  let raw_text := extract_text msg
  if info.source.is_from_me || (is_self_chat && sender_is_owner) then
    if !is_self_chat || was_sent_by_us sent_ids info.id
        || has_bot_watermark raw_text then
      MsgGateOutcome.dropped
    else
      MsgGateOutcome.processed true (Except.ok ())
  else
    let is_group := info.source.is_group
    let group_id := if is_group then some chat_id else none
    MsgGateOutcome.processed false
      (check_access config is_group peer_id (some username) group_id)

/-- C2: for a message classified as an owner self-chat (flagged
`is_from_me`, or chat and sender both resolving to the account's own
identity), the message is dropped iff the chat does not resolve to the
owner, or its id is in the recently-sent set, or its text carries the
watermark — otherwise it is processed with access treated as granted; in
particular an `is_from_me` message whose chat is not the owner's chat is
always dropped. -/
theorem C2_owner_self_chat_gate (own_pn own_lid : Option Jid)
    (sent_ids : List String) (config : WhatsAppAccountConfig)
    (msg : WaMessage) (info : MessageInfo) :
    (info.source.is_from_me = true ∨
        (is_owner_user info.source.chat own_pn own_lid = true ∧
          is_owner_user info.source.sender own_pn own_lid = true) →
      (handle_message_gate own_pn own_lid sent_ids config msg info
          = MsgGateOutcome.dropped ↔
        is_owner_user info.source.chat own_pn own_lid = false ∨
          was_sent_by_us sent_ids info.id = true ∨
          has_bot_watermark (extract_text msg) = true) ∧
      (¬ handle_message_gate own_pn own_lid sent_ids config msg info
          = MsgGateOutcome.dropped →
        handle_message_gate own_pn own_lid sent_ids config msg info
          = MsgGateOutcome.processed true (Except.ok ()))) ∧
    (info.source.is_from_me = true →
      is_owner_user info.source.chat own_pn own_lid = false →
      handle_message_gate own_pn own_lid sent_ids config msg info
        = MsgGateOutcome.dropped) := by
  constructor
  · intro hcls
    have hcond : (info.source.is_from_me
        || (is_owner_user info.source.chat own_pn own_lid
            && is_owner_user info.source.sender own_pn own_lid)) = true := by
      rcases hcls with h | ⟨h1, h2⟩
      · simp [h]
      · simp [h1, h2]
    rcases Bool.eq_false_or_eq_true info.source.is_from_me with hF | hF <;>
      rcases Bool.eq_false_or_eq_true
        (is_owner_user info.source.sender own_pn own_lid) with hO | hO <;>
        rcases Bool.eq_false_or_eq_true
          (is_owner_user info.source.chat own_pn own_lid) with hS | hS <;>
          rcases Bool.eq_false_or_eq_true
            (was_sent_by_us sent_ids info.id) with hW | hW <;>
            rcases Bool.eq_false_or_eq_true
              (has_bot_watermark (extract_text msg)) with hB | hB <;>
              first
                | (exfalso; revert hcond; simp [hF, hS, hO]; done)
                | simp [handle_message_gate, hF, hO, hS, hW, hB]
  · intro hF hS
    simp [handle_message_gate, hF, hS]

/-- The account owner's LID identity used by the C2 witness. -/
def ownerJid : Jid := { user := "259557842534599", server := "lid" }

/-- A plain text message used by the C2 witness. -/
def plainTextMsg : WaMessage :=
  { conversation := some "hi", extendedTextMessage := none,
    imageMessage := none, audioMessage := none, videoMessage := none,
    documentMessage := none, locationMessage := none,
    liveLocationMessage := none }

/-- Delivery info of a cross-device self-chat message (owner chat and
owner sender, `is_from_me` not set). -/
def selfChatInfo : MessageInfo :=
  { id := "m1",
    source := { chat := ownerJid, sender := ownerJid,
                is_from_me := false, is_group := false },
    push_name := "" }

/-- Delivery info of an `is_from_me` message in a group chat. -/
def fromMeGroupInfo : MessageInfo :=
  { id := "m2",
    source := { chat := { user := "120363456789", server := "g.us" },
                sender := ownerJid, is_from_me := true, is_group := true },
    push_name := "" }

/-- Witness for C2: a genuine cross-device self-chat message is processed
with access bypassed, and an `is_from_me` message in a group chat is
dropped. -/
theorem C2_owner_self_chat_gate_witness :
    handle_message_gate none (some ownerJid) []
        WhatsAppAccountConfig.default plainTextMsg selfChatInfo
      = MsgGateOutcome.processed true (Except.ok ()) ∧
    handle_message_gate none (some ownerJid) []
        WhatsAppAccountConfig.default plainTextMsg fromMeGroupInfo
      = MsgGateOutcome.dropped := by
  constructor
  · refine ((C2_owner_self_chat_gate none (some ownerJid) []
        WhatsAppAccountConfig.default plainTextMsg selfChatInfo).1
      (Or.inr ⟨by decide, by decide⟩)).2 ?_
    intro h
    have hiff := (((C2_owner_self_chat_gate none (some ownerJid) []
        WhatsAppAccountConfig.default plainTextMsg selfChatInfo).1
      (Or.inr ⟨by decide, by decide⟩)).1.mp h)
    revert hiff
    decide
  · exact (C2_owner_self_chat_gate none (some ownerJid) []
      WhatsAppAccountConfig.default plainTextMsg fromMeGroupInfo).2
      (by decide) (by decide)

/-! ### Connection registry aliasing — `connection.rs`, `handlers.rs`,
`plugin.rs` -/

/-- The connectivity slice of `AccountState` that `handle_event` mutates
and that `probe`/`latest_qr` read: the atomic connected flag and the
latest pairing QR data. -/
structure ConnState where
  connected : Bool
  latest_qr : Option String
  deriving DecidableEq, Repr

/-- Transport-level events as dispatched by `handle_event`
(`handlers.rs` lines 29-111). -/
inductive TransportEvent
  | pairingQrCode (code : String)
  | connectedEv
  | pairError (err : String)
  | disconnectedEv
  | loggedOut
  | message
  | other
  deriving DecidableEq, Repr

/-- `handle_event`'s mutations of the `AccountState` it is bound to
(`handlers.rs`), restricted to the connectivity slice: QR issuance stores
the code, `Connected` sets the flag and clears the code, `Disconnected`
and `LoggedOut` clear the flag, everything else leaves the slice
unchanged. -/
def handle_event (st : ConnState) (e : TransportEvent) : ConnState :=
  match e with
  | TransportEvent.pairingQrCode code => { st with latest_qr := some code }
  | TransportEvent.connectedEv => { st with connected := true, latest_qr := none }
  | TransportEvent.pairError _ => st
  | TransportEvent.disconnectedEv => { st with connected := false }
  | TransportEvent.loggedOut => { st with connected := false }
  | TransportEvent.message => st
  | TransportEvent.other => st

/-- The two `AccountState` instances built by `start_connection`
(`connection.rs` lines 83-114): the instance populated into the OnceCell
that the event handler reads, and the separately constructed instance
inserted into the shared account registry. -/
structure ConnectionPair where
  handler : ConnState
  registry : ConnState
  deriving DecidableEq, Repr

/-- State right after `start_connection` returns: both instances start
disconnected with no QR data. -/
def start_connection_state : ConnectionPair :=
  { handler := { connected := false, latest_qr := none },
    registry := { connected := false, latest_qr := none } }

/-- One transport event: `handle_event` runs against the OnceCell-bound
instance only; the registry entry is never touched. -/
def connection_step (p : ConnectionPair) (e : TransportEvent) :
    ConnectionPair :=
  { p with handler := handle_event p.handler e }

/-- `ChannelStatus::probe` for `WhatsAppPlugin` (`plugin.rs` lines
196-250) reads the connected flag of the registry entry. -/
def probe_connected (p : ConnectionPair) : Bool := p.registry.connected

/-- `WhatsAppPlugin::latest_qr` (`plugin.rs`) reads the registry entry. -/
def plugin_latest_qr (p : ConnectionPair) : Option String :=
  p.registry.latest_qr

/-- The registry entry is invariant under event handling. -/
theorem foldl_connection_step_registry (es : List TransportEvent)
    (p : ConnectionPair) :
    (es.foldl connection_step p).registry = p.registry := by
  induction es generalizing p with
  | nil => rfl
  | cons e es ih => simpa [connection_step] using ih _

/-- C10: `start_connection` registers a fresh `AccountState` distinct from
the one bound to the event handler, so after any sequence of transport
events the registry entry still reports `connected = false` and
`latest_qr = None` — `probe` and `latest_qr` never observe the handler's
mutations, even right after `Connected` or `PairingQrCode` events that the
handler instance did record. -/
theorem C10_registry_blind_to_handler (es : List TransportEvent) :
    probe_connected (es.foldl connection_step start_connection_state)
      = false ∧
    plugin_latest_qr (es.foldl connection_step start_connection_state)
      = none ∧
    probe_connected (connection_step start_connection_state
      TransportEvent.connectedEv) = false ∧
    (connection_step start_connection_state
      TransportEvent.connectedEv).handler.connected = true ∧
    plugin_latest_qr (connection_step start_connection_state
      (TransportEvent.pairingQrCode "qr-data")) = none ∧
    (connection_step start_connection_state
      (TransportEvent.pairingQrCode "qr-data")).handler.latest_qr
      = some "qr-data" := by
  refine ⟨?_, ?_, rfl, rfl, rfl, rfl⟩
  · simp [probe_connected, foldl_connection_step_registry,
      start_connection_state]
  · simp [plugin_latest_qr, foldl_connection_step_registry,
      start_connection_state]

/-! ### Mutation-MAC storage — `memory_store.rs` and `sled_store.rs`
(both backends implement the identical key-synthesis algorithm over their
respective map engines). -/

/-- One hex digit of `hex_encode` (`{b:02x}` formatting). -/
def hexDigitChar (n : Nat) : Char :=
  if n < 10 then Char.ofNat ('0'.toNat + n) else Char.ofNat ('a'.toNat + n - 10)

/-- The two hex digits of one byte. -/
def hexByte (b : Nat) : List Char :=
  [hexDigitChar (b / 16 % 16), hexDigitChar (b % 16)]

/-- Character data of `hex_encode`. -/
def hexData (bytes : List Nat) : List Char :=
  bytes.foldr (fun b acc => hexByte b ++ acc) []

/-- `hex_encode` (`memory_store.rs` / `sled_store.rs`): lowercase hex, two
digits per byte. -/
def hex_encode (bytes : List Nat) : String := ⟨hexData bytes⟩

/-- Rust `str::starts_with`, embedded at the character level. -/
def str_starts_with (s pre : String) : Bool := pre.data.isPrefixOf s.data

/-- Rust `str::ends_with`, embedded at the character level. -/
def str_ends_with (s post : String) : Bool := post.data.isSuffixOf s.data

/-- `wacore::appstate::processor::AppStateMutationMAC`: an index MAC and a
value MAC, both byte strings. -/
structure AppStateMutationMAC where
  index_mac : List Nat
  value_mac : List Nat
  deriving DecidableEq, Repr

/-- The mutation-MAC slice of the store: the `mutation_macs` map keyed by
`name:version:hex(index_mac)` and the `mutation_mac_indexes` map keyed by
`name:version`. -/
structure MacStore where
  mutation_macs : List (String × List Nat)
  mutation_mac_indexes : List (String × List (List Nat))
  deriving DecidableEq, Repr

/-- The empty mutation-MAC store. -/
def emptyMacStore : MacStore := { mutation_macs := [], mutation_mac_indexes := [] }

/-- `put_mutation_macs` (`memory_store.rs` lines 177-192 / `sled_store.rs`
lines 261-281): insert each MAC under `name:version:hex(index_mac)` and
record the list of index MACs under `name:version`. -/
def put_mutation_macs (st : MacStore) (name : String) (version : Nat)
    (mutations : List AppStateMutationMAC) : MacStore :=
  let version_key := name ++ ":" ++ toString version
  { st with
    mutation_macs := mutations.foldl
      (fun acc mac => alPut acc
        (name ++ ":" ++ toString version ++ ":" ++ hex_encode mac.index_mac)
        mac.value_mac)
      st.mutation_macs,
    mutation_mac_indexes := alPut st.mutation_mac_indexes version_key
      (mutations.map (·.index_mac)) }

/-- `get_mutation_mac` (`memory_store.rs` lines 194-206 / `sled_store.rs`
lines 283-299): scan the index entries whose key starts with `name:` and
return the first value found under `version_key:hex(index_mac)`. -/
def get_mutation_mac (st : MacStore) (name : String) (index_mac : List Nat) :
    Option (List Nat) :=
  st.mutation_mac_indexes.findSome? fun entry =>
    if str_starts_with entry.1 (name ++ ":") then
      alGet st.mutation_macs (entry.1 ++ ":" ++ hex_encode index_mac)
    else
      none

/-- `delete_mutation_macs` (`memory_store.rs` lines 208-223 /
`sled_store.rs` lines 301-318): for each index MAC, remove every stored
entry whose key starts with `name:` and ends with `hex(index_mac)`. -/
def delete_mutation_macs (st : MacStore) (name : String)
    (index_macs : List (List Nat)) : MacStore :=
  index_macs.foldl
    (fun acc index_mac =>
      { acc with mutation_macs := acc.mutation_macs.filter fun kv =>
          !(str_starts_with kv.1 (name ++ ":")
            && str_ends_with kv.1 (hex_encode index_mac)) })
    st

/-- C7 counterexample: deletion matches by key suffix, not by exact index
MAC.  Deleting index MAC `[0xAB]` (hex `"ab"`) also removes the entry for
the distinct index MAC `[0x01, 0xAB]` (hex `"01ab"`), because the stored
key `"n:1:01ab"` ends with `"ab"` — the claim says that entry is left
intact. -/
theorem C7_suffix_deletion_counterexample :
    get_mutation_mac
      (put_mutation_macs emptyMacStore "n" 1
        [{ index_mac := [1, 171], value_mac := [7] }]) "n" [1, 171]
      = some [7] ∧
    get_mutation_mac
      (delete_mutation_macs
        (put_mutation_macs emptyMacStore "n" 1
          [{ index_mac := [1, 171], value_mac := [7] }]) "n" [[171]])
      "n" [1, 171]
      = none := by decide

theorem alGet_alRemove_ne {β : Type} (l : List (String × β)) (k k2 : String)
    (h : k2 ≠ k) : alGet (alRemove l k) k2 = alGet l k2 := by
  induction l with
  | nil => rfl
  | cons p t ih =>
    by_cases hpk : (p.1 == k) = true
    · have hpk2 : (p.1 == k2) = false := by
        rw [beq_iff_eq] at hpk
        rw [beq_eq_false_iff_ne]
        intro e
        exact h (by rw [← e, hpk])
      have e1 : alRemove (p :: t) k = alRemove t k := by
        simp [alRemove, List.filter_cons, hpk]
      rw [e1, ih]
      simp [alGet, List.find?, hpk2]
    · have hpk' : (p.1 == k) = false := by simpa using hpk
      have e1 : alRemove (p :: t) k = p :: alRemove t k := by
        simp [alRemove, List.filter_cons, hpk']
      rw [e1]
      by_cases hpk2 : (p.1 == k2) = true
      · simp [alGet, List.find?, hpk2]
      · have hpk2' : (p.1 == k2) = false := by simpa using hpk2
        simp only [alGet, List.find?, hpk2']
        exact ih

theorem alGet_alPut_ne {β : Type} (l : List (String × β)) (k k2 : String)
    (v : β) (h : k2 ≠ k) : alGet (alPut l k v) k2 = alGet l k2 := by
  rw [alGet_alPut_of_ne l k k2 v h, alGet_alRemove_ne l k k2 h]

theorem alGet_foldl_alPut_not_mem {β γ : Type} (kf : γ → String)
    (vf : γ → β) (l : List γ) (acc : List (String × β)) (k : String)
    (hk : ∀ x ∈ l, kf x ≠ k) :
    alGet (l.foldl (fun a x => alPut a (kf x) (vf x)) acc) k = alGet acc k := by
  induction l generalizing acc with
  | nil => rfl
  | cons x xs ih =>
    rw [List.foldl_cons, ih _ (fun y hy => hk y (by simp [hy]))]
    exact alGet_alPut_ne acc (kf x) k (vf x)
      (fun e => hk x (by simp) e.symm)

theorem alGet_foldl_alPut_mem {β γ : Type} (kf : γ → String) (vf : γ → β)
    (l : List γ) (acc : List (String × β)) (m : γ) (hm : m ∈ l)
    (hnd : (l.map kf).Nodup) :
    alGet (l.foldl (fun a x => alPut a (kf x) (vf x)) acc) (kf m)
      = some (vf m) := by
  induction l generalizing acc with
  | nil => cases hm
  | cons x xs ih =>
    rw [List.foldl_cons]
    rw [List.map_cons] at hnd
    rcases List.mem_cons.mp hm with rfl | hm2
    · have h1 := (List.nodup_cons.mp hnd).1
      have hnot : ∀ y ∈ xs, kf y ≠ kf m := by
        intro y hy e
        exact h1 (e ▸ List.mem_map_of_mem kf hy)
      rw [alGet_foldl_alPut_not_mem kf vf xs _ (kf m) hnot]
      exact alGet_alPut_self acc (kf m) (vf m)
    · exact ih _ hm2 (List.nodup_cons.mp hnd).2

theorem alGet_filter_out {β : Type} (l : List (String × β))
    (P : String → Bool) (k : String) (hP : P k = true) :
    alGet (l.filter fun kv => !(P kv.1)) k = none := by
  have h : (l.filter fun kv => !(P kv.1)).find? (fun p => p.1 == k)
      = none := by
    rw [List.find?_eq_none]
    intro p hp
    have hkeep := (List.mem_filter.mp hp).2
    intro hpk
    rw [beq_iff_eq] at hpk
    rw [hpk] at hkeep
    simp [hP] at hkeep
  simp [alGet, h]

theorem alGet_filter_keep {β : Type} (l : List (String × β))
    (P : String → Bool) (k : String) (hP : P k = false) :
    alGet (l.filter fun kv => !(P kv.1)) k = alGet l k := by
  induction l with
  | nil => rfl
  | cons p t ih =>
    by_cases hpk : (p.1 == k) = true
    · have hPp : P p.1 = false := by
        rw [beq_iff_eq] at hpk
        rw [hpk, hP]
      simp [List.filter, hPp, alGet, List.find?, hpk]
    · have hpk' : (p.1 == k) = false := by simpa using hpk
      by_cases hkeep : (!(P p.1)) = true
      · simp only [List.filter, hkeep]
        simp only [alGet, List.find?, hpk'] at *
        exact ih
      · have hkeep' : (!(P p.1)) = false := by simpa using hkeep
        simp only [List.filter, hkeep']
        simp only [alGet, List.find?, hpk'] at *
        exact ih

theorem hexDigitChar_inj : ∀ m, m < 16 → ∀ n, n < 16 →
    hexDigitChar m = hexDigitChar n → m = n := by decide

theorem hexDigitChar_ne_colon : ∀ n, n < 16 → hexDigitChar n ≠ ':' := by
  decide

theorem hexByte_inj (b1 b2 : Nat) (h1 : b1 < 256) (h2 : b2 < 256)
    (h : hexByte b1 = hexByte b2) : b1 = b2 := by
  simp only [hexByte, List.cons.injEq, and_true] at h
  have e1 := hexDigitChar_inj _ (Nat.mod_lt _ (by decide)) _
    (Nat.mod_lt _ (by decide)) h.1
  have e2 := hexDigitChar_inj _ (Nat.mod_lt _ (by decide)) _
    (Nat.mod_lt _ (by decide)) h.2
  omega

theorem hexData_cons (b : Nat) (l : List Nat) :
    hexData (b :: l) = hexByte b ++ hexData l := rfl

theorem hexData_inj (l1 : List Nat) : ∀ (l2 : List Nat),
    (∀ b ∈ l1, b < 256) → (∀ b ∈ l2, b < 256) →
    hexData l1 = hexData l2 → l1 = l2 := by
  induction l1 with
  | nil =>
    intro l2 _ _ h
    cases l2 with
    | nil => rfl
    | cons b t => simp [hexData, hexByte] at h
  | cons b1 t1 ih =>
    intro l2 h1 h2 h
    cases l2 with
    | nil => simp [hexData, hexByte] at h
    | cons b2 t2 =>
      rw [hexData_cons, hexData_cons] at h
      obtain ⟨e1, e2⟩ := List.append_inj h (by simp [hexByte])
      have hb : b1 = b2 :=
        hexByte_inj b1 b2 (h1 b1 (by simp)) (h2 b2 (by simp)) e1
      subst hb
      rw [ih t2 (fun x hx => h1 x (by simp [hx]))
        (fun x hx => h2 x (by simp [hx])) e2]

theorem hex_encode_inj (l1 l2 : List Nat) (h1 : ∀ b ∈ l1, b < 256)
    (h2 : ∀ b ∈ l2, b < 256) (h : hex_encode l1 = hex_encode l2) :
    l1 = l2 :=
  hexData_inj l1 l2 h1 h2 (congrArg String.data h)

theorem hexData_ne_colon (l : List Nat) : ∀ ch ∈ hexData l, ch ≠ ':' := by
  induction l with
  | nil => simp [hexData]
  | cons b t ih =>
    intro ch hch
    rw [hexData_cons] at hch
    rcases List.mem_append.mp hch with h | h
    · simp only [hexByte, List.mem_cons, List.not_mem_nil, or_false] at h
      rcases h with rfl | rfl
      · exact hexDigitChar_ne_colon _ (Nat.mod_lt _ (by decide))
      · exact hexDigitChar_ne_colon _ (Nat.mod_lt _ (by decide))
    · exact ih ch h

theorem str_starts_with_append (a b : String) :
    str_starts_with (a ++ b) a = true := by
  simp only [str_starts_with, String.data_append, List.isPrefixOf_iff_prefix]
  exact List.prefix_append _ _

theorem str_ends_with_append_of (a b c : String)
    (h : str_ends_with b c = true) : str_ends_with (a ++ b) c = true := by
  simp only [str_ends_with, List.isSuffixOf_iff_suffix,
    String.data_append] at *
  exact h.trans (List.suffix_append a.data b.data)

/-- A suffix that avoids the separator `x` and survives past `D ++ [x]`
must already be a suffix of `B`. -/
theorem suffix_append_cancel (D B c : List Char) (x : Char)
    (hc : ∀ ch ∈ c, ch ≠ x) (h : c <:+ (D ++ [x]) ++ B) : c <:+ B := by
  by_cases hlen : c.length ≤ B.length
  · exact List.suffix_of_suffix_length_le h (List.suffix_append _ B) hlen
  · exfalso
    have hBc : B <:+ c :=
      List.suffix_of_suffix_length_le (List.suffix_append _ B) h (by omega)
    obtain ⟨mid, hmid⟩ := hBc
    obtain ⟨pre, hpre⟩ := h
    rw [← hmid, ← List.append_assoc] at hpre
    have hpm : pre ++ mid = D ++ [x] := (List.append_inj' hpre rfl).1
    have hmidlen : 0 < mid.length := by
      have hc1 := congrArg List.length hmid
      simp only [List.length_append] at hc1
      omega
    have hxmem : x ∈ mid := by
      have hsuf : mid <:+ D ++ [x] := ⟨pre, hpm⟩
      have h1 : [x] <:+ mid :=
        List.suffix_of_suffix_length_le (List.suffix_append D [x]) hsuf
          (by simpa using hmidlen)
      obtain ⟨q, hq⟩ := h1
      rw [← hq]
      simp
    have hxc : x ∈ c := by
      rw [← hmid]
      exact List.mem_append_left _ hxmem
    exact hc x hxc rfl

/-- Appending `vk ++ ":"` in front does not change whether a colon-free
needle is a suffix: the stored key `vk:hexm` ends with `hexi` exactly when
`hexm` does. -/
theorem str_ends_with_colon_sep (vk hexm hexi : String)
    (hi : ∀ ch ∈ hexi.data, ch ≠ ':') :
    str_ends_with (vk ++ ":" ++ hexm) hexi = str_ends_with hexm hexi := by
  have hcolon : (":" : String).data = [':'] := rfl
  have hdata : (vk ++ ":" ++ hexm).data = (vk.data ++ [':']) ++ hexm.data := by
    rw [String.data_append, String.data_append, hcolon]
  rcases Bool.eq_false_or_eq_true (str_ends_with hexm hexi) with h | h
  · rw [h]
    exact str_ends_with_append_of (vk ++ ":") hexm hexi h
  · rw [h, Bool.eq_false_iff]
    intro htrue
    have hsuf : hexi.data <:+ (vk.data ++ [':']) ++ hexm.data := by
      simpa only [str_ends_with, List.isSuffixOf_iff_suffix, hdata]
        using htrue
    have hsuf2 := suffix_append_cancel vk.data hexm.data hexi.data ':' hi hsuf
    have hcontra : str_ends_with hexm hexi = true := by
      simpa only [str_ends_with, List.isSuffixOf_iff_suffix] using hsuf2
    rw [h] at hcontra
    exact Bool.false_ne_true hcontra

theorem append_right_inj_str (A h1 h2 : String) (h : A ++ h1 = A ++ h2) :
    h1 = h2 := by
  apply String.ext
  have hd := congrArg String.data h
  rw [String.data_append, String.data_append] at hd
  exact List.append_cancel_left hd

theorem key_starts (name tv h : String) :
    str_starts_with (name ++ ":" ++ tv ++ ":" ++ h) (name ++ ":") = true := by
  have e : name ++ ":" ++ tv ++ ":" ++ h
      = (name ++ ":") ++ (tv ++ (":" ++ h)) := by
    rw [String.append_assoc, String.append_assoc]
  rw [e]
  exact str_starts_with_append _ _

/-- Reduce `get_mutation_mac` over a store holding a single index entry
`name:version`. -/
theorem get_single_index (st : MacStore) (name : String) (version : Nat)
    (idxs : List (List Nat)) (i : List Nat)
    (hidx : st.mutation_mac_indexes
      = [(name ++ ":" ++ toString version, idxs)]) :
    get_mutation_mac st name i
      = alGet st.mutation_macs
          (name ++ ":" ++ toString version ++ ":" ++ hex_encode i) := by
  simp only [get_mutation_mac, hidx, List.findSome?,
    str_starts_with_append (name ++ ":") (toString version), if_true]
  cases halg : alGet st.mutation_macs
      (name ++ ":" ++ toString version ++ ":" ++ hex_encode i) <;>
    simp [halg]

/-- Injectivity of the synthesized MAC key in the index MAC, over byte
lists with byte values below 256. -/
theorem mac_key_inj (name tv : String) (i j : List Nat)
    (hi : ∀ b ∈ i, b < 256) (hj : ∀ b ∈ j, b < 256)
    (h : name ++ ":" ++ tv ++ ":" ++ hex_encode i
      = name ++ ":" ++ tv ++ ":" ++ hex_encode j) : i = j := by
  have e := append_right_inj_str (name ++ ":" ++ tv ++ ":")
    (hex_encode i) (hex_encode j) (by
      rw [String.append_assoc] at h ⊢
      exact h)
  exact hex_encode_inj i j hi hj e

/-- C7 (amended): after `put_mutation_macs`, `get_mutation_mac` returns
each stored value MAC regardless of the version it was written at; a
lookup of an absent (name, index MAC) returns `none`, not an error; and
`delete_mutation_macs` removes, across all versions, exactly the entries
whose synthesized key ends with `hex(i)` — so an entry for a distinct
index MAC whose hex encoding has `hex(i)` as a suffix is removed as well
(suffix-match removal, not exact-match) — tolerating index MACs that were
never stored. -/
theorem C7_mutation_mac_contract_amended :
    (∀ (name : String) (version : Nat) (macs : List AppStateMutationMAC),
      (∀ m ∈ macs, ∀ b ∈ m.index_mac, b < 256) →
      (macs.map (·.index_mac)).Nodup →
      ∀ m ∈ macs,
        get_mutation_mac (put_mutation_macs emptyMacStore name version macs)
          name m.index_mac = some m.value_mac) ∧
    (∀ (name : String) (i : List Nat),
      get_mutation_mac emptyMacStore name i = none) ∧
    (∀ (name : String) (version : Nat) (macs : List AppStateMutationMAC)
        (i : List Nat),
      (∀ m ∈ macs, ∀ b ∈ m.index_mac, b < 256) → (∀ b ∈ i, b < 256) →
      i ∉ macs.map (·.index_mac) →
      get_mutation_mac (put_mutation_macs emptyMacStore name version macs)
        name i = none) ∧
    (∀ (name : String) (version : Nat) (macs : List AppStateMutationMAC)
        (i : List Nat),
      (∀ m ∈ macs, ∀ b ∈ m.index_mac, b < 256) →
      (macs.map (·.index_mac)).Nodup →
      ∀ m ∈ macs,
        (str_ends_with (hex_encode m.index_mac) (hex_encode i) = false →
          get_mutation_mac
            (delete_mutation_macs
              (put_mutation_macs emptyMacStore name version macs) name [i])
            name m.index_mac = some m.value_mac) ∧
        (str_ends_with (hex_encode m.index_mac) (hex_encode i) = true →
          get_mutation_mac
            (delete_mutation_macs
              (put_mutation_macs emptyMacStore name version macs) name [i])
            name m.index_mac = none)) ∧
    (∀ (st : MacStore) (name : String) (i : List Nat),
      (∀ kv ∈ st.mutation_macs,
        (str_starts_with kv.1 (name ++ ":")
          && str_ends_with kv.1 (hex_encode i)) = false) →
      delete_mutation_macs st name [i] = st) ∧
    (get_mutation_mac
      (put_mutation_macs
        (put_mutation_macs emptyMacStore "n" 1
          [{ index_mac := [171], value_mac := [7] }]) "n" 2
        [{ index_mac := [205], value_mac := [9] }]) "n" [171]
      = some [7] ∧
     get_mutation_mac
      (delete_mutation_macs
        (put_mutation_macs
          (put_mutation_macs emptyMacStore "n" 1
            [{ index_mac := [171], value_mac := [7] }]) "n" 2
          [{ index_mac := [205], value_mac := [9] }]) "n" [[171]]) "n" [171]
      = none ∧
     get_mutation_mac
      (delete_mutation_macs
        (put_mutation_macs
          (put_mutation_macs emptyMacStore "n" 1
            [{ index_mac := [171], value_mac := [7] }]) "n" 2
          [{ index_mac := [205], value_mac := [9] }]) "n" [[171]]) "n" [205]
      = some [9]) := by
  have hinjon : ∀ (name : String) (version : Nat)
      (macs : List AppStateMutationMAC),
      (∀ m ∈ macs, ∀ b ∈ m.index_mac, b < 256) →
      (macs.map (·.index_mac)).Nodup →
      (macs.map (fun mac => name ++ ":" ++ toString version ++ ":"
        ++ hex_encode mac.index_mac)).Nodup := by
    intro name version macs hb hnd
    refine List.Nodup.map_on ?_ (List.Nodup.of_map _ hnd)
    intro x hx y hy hxy
    have hidx : x.index_mac = y.index_mac :=
      mac_key_inj name (toString version) x.index_mac y.index_mac
        (hb x hx) (hb y hy) hxy
    exact List.inj_on_of_nodup_map hnd hx hy hidx
  have hput_macs : ∀ (name : String) (version : Nat)
      (macs : List AppStateMutationMAC),
      (put_mutation_macs emptyMacStore name version macs).mutation_macs
        = macs.foldl
            (fun acc mac => alPut acc
              (name ++ ":" ++ toString version ++ ":"
                ++ hex_encode mac.index_mac) mac.value_mac) [] :=
    fun _ _ _ => rfl
  have hget_put : ∀ (name : String) (version : Nat)
      (macs : List AppStateMutationMAC),
      (∀ m ∈ macs, ∀ b ∈ m.index_mac, b < 256) →
      (macs.map (·.index_mac)).Nodup →
      ∀ m ∈ macs,
        get_mutation_mac (put_mutation_macs emptyMacStore name version macs)
          name m.index_mac = some m.value_mac := by
    intro name version macs hb hnd m hm
    rw [get_single_index _ name version (macs.map (·.index_mac))
      m.index_mac rfl, hput_macs]
    exact alGet_foldl_alPut_mem
      (fun mac => name ++ ":" ++ toString version ++ ":"
        ++ hex_encode mac.index_mac)
      (fun mac => mac.value_mac) macs [] m hm
      (hinjon name version macs hb hnd)
  refine ⟨hget_put, ?_, ?_, ?_, ?_, by decide, by decide, by decide⟩
  · intro name i
    rfl
  · intro name version macs i hb hbi hnotmem
    rw [get_single_index _ name version (macs.map (·.index_mac)) i rfl,
      hput_macs]
    rw [alGet_foldl_alPut_not_mem _ _ macs [] _ ?_]
    · rfl
    · intro x hx e
      exact hnotmem (by
        have : i = x.index_mac :=
          (mac_key_inj name (toString version) x.index_mac i
            (hb x hx) hbi e).symm
        rw [this]
        exact List.mem_map_of_mem _ hx)
  · intro name version macs i hb hnd m hm
    have hcolfree : ∀ ch ∈ (hex_encode i).data, ch ≠ ':' := hexData_ne_colon i
    have hends : str_ends_with (name ++ ":" ++ toString version ++ ":"
        ++ hex_encode m.index_mac) (hex_encode i)
        = str_ends_with (hex_encode m.index_mac) (hex_encode i) :=
      str_ends_with_colon_sep (name ++ ":" ++ toString version)
        (hex_encode m.index_mac) (hex_encode i) hcolfree
    have hdel_idx : (delete_mutation_macs
        (put_mutation_macs emptyMacStore name version macs)
        name [i]).mutation_mac_indexes
        = [(name ++ ":" ++ toString version, macs.map (·.index_mac))] := rfl
    constructor
    · intro hno
      rw [get_single_index _ name version (macs.map (·.index_mac))
        m.index_mac hdel_idx]
      have hP : (str_starts_with (name ++ ":" ++ toString version ++ ":"
          ++ hex_encode m.index_mac) (name ++ ":")
          && str_ends_with (name ++ ":" ++ toString version ++ ":"
            ++ hex_encode m.index_mac) (hex_encode i)) = false := by
        rw [hends, hno, Bool.and_false]
      have hkeep := alGet_filter_keep
        ((put_mutation_macs emptyMacStore name version macs).mutation_macs)
        (fun k => str_starts_with k (name ++ ":")
          && str_ends_with k (hex_encode i))
        (name ++ ":" ++ toString version ++ ":" ++ hex_encode m.index_mac)
        hP
      refine hkeep.trans ?_
      rw [hput_macs]
      exact alGet_foldl_alPut_mem _ (fun mac => mac.value_mac) macs [] m hm
        (hinjon name version macs hb hnd)
    · intro hyes
      rw [get_single_index _ name version (macs.map (·.index_mac))
        m.index_mac hdel_idx]
      have hP : (str_starts_with (name ++ ":" ++ toString version ++ ":"
          ++ hex_encode m.index_mac) (name ++ ":")
          && str_ends_with (name ++ ":" ++ toString version ++ ":"
            ++ hex_encode m.index_mac) (hex_encode i)) = true := by
        rw [hends, hyes, Bool.and_true, key_starts]
      exact alGet_filter_out
        ((put_mutation_macs emptyMacStore name version macs).mutation_macs)
        (fun k => str_starts_with k (name ++ ":")
          && str_ends_with k (hex_encode i))
        (name ++ ":" ++ toString version ++ ":" ++ hex_encode m.index_mac)
        hP
  · intro st name i hmatch
    have hfil : st.mutation_macs.filter
        (fun kv => !(str_starts_with kv.1 (name ++ ":")
          && str_ends_with kv.1 (hex_encode i))) = st.mutation_macs := by
      rw [List.filter_eq_self]
      intro kv hkv
      rw [hmatch kv hkv]
      rfl
    have hgoal : delete_mutation_macs st name [i] = { st with mutation_macs := st.mutation_macs.filter fun kv => !(str_starts_with kv.1 (name ++ ":") && str_ends_with kv.1 (hex_encode i)) } := rfl
    rw [hgoal, hfil]

/-- Witness for the amended C7 theorem at concrete inputs. -/
theorem C7_mutation_mac_contract_amended_witness :
    get_mutation_mac
      (put_mutation_macs emptyMacStore "n" 1
        [{ index_mac := [171], value_mac := [7] }]) "n" [171]
      = some [7] ∧
    get_mutation_mac
      (delete_mutation_macs
        (put_mutation_macs emptyMacStore "n" 1
          [{ index_mac := [171], value_mac := [7] }]) "n" [[171]])
      "n" [171]
      = none := by
  constructor
  · exact C7_mutation_mac_contract_amended.1 "n" 1
      [{ index_mac := [171], value_mac := [7] }] (by decide) (by decide)
      { index_mac := [171], value_mac := [7] } (by decide)
  · exact (C7_mutation_mac_contract_amended.2.2.2.1 "n" 1
      [{ index_mac := [171], value_mac := [7] }] [171] (by decide)
      (by decide) { index_mac := [171], value_mac := [7] } (by decide)).2
      (by decide)

/-! ### Durable store — `sled_store.rs`

A `sled::Tree` is an on-disk key-value map and every `insert`/`remove`
writes through to the database, so the disk state is the collection of
trees; `SledStore::open` binds the trees of the database at a path and
loads the persisted device-id counter.  serde_json payloads are embedded
as their decoded values (serde_json round-trips are lossless). -/

/-- `wacore` `AppStateSyncKey`. -/
structure AppStateSyncKey where
  key_data : List Nat
  fingerprint : List Nat
  timestamp : Int
  deriving DecidableEq, Repr

/-- `wacore` `HashState` (app-state version cursor), reduced to its
version counter and hash bytes. -/
structure HashState where
  version : Nat
  hash : List Nat
  deriving DecidableEq, Repr

/-- `HashState::default()`. -/
def HashState.defaultState : HashState := { version := 0, hash := [] }

/-- `wacore` `LidPnMappingEntry`. -/
structure LidPnMappingEntry where
  lid : String
  phone_number : String
  created_at : Int
  updated_at : Int
  learning_source : String
  deriving DecidableEq, Repr

/-- `wacore` `DeviceInfo`. -/
structure DeviceInfo where
  device_id : Int
  key_index : Option Nat
  deriving DecidableEq, Repr

/-- `wacore` `DeviceListRecord`. -/
structure DeviceListRecord where
  user : String
  devices : List DeviceInfo
  timestamp : Int
  phash : Option String
  deriving DecidableEq, Repr

/-- The on-disk state of one account's sled database: one tree per record
family (`SledStore::open` opens each by name).  `wacore::store::Device` is
opaque to this crate and embedded as its serialized bytes; the
`device_data` tree holds a single key `device` and the `device_id` tree a
single key `counter`. -/
structure SledDisk where
  identities : List (String × List Nat)
  sessions : List (String × List Nat)
  prekeys : List (Nat × (List Nat × Bool))
  signed_prekeys : List (Nat × List Nat)
  sender_keys : List (String × List Nat)
  sync_keys : List (List Nat × AppStateSyncKey)
  app_state_versions : List (String × HashState)
  mutation_macs : List (String × List Nat)
  mutation_mac_indexes : List (String × List (List Nat))
  device_data : Option (List Nat)
  device_id_counter : Option Int
  skdm_recipients : List (String × List String)
  lid_mappings : List (String × LidPnMappingEntry)
  pn_mappings : List (String × String)
  device_list_records : List (String × DeviceListRecord)
  sender_key_forget_marks : List (String × List Nat)
  base_keys : List (String × List Nat)
  deriving DecidableEq, Repr

/-- A freshly created (empty) database directory. -/
def emptySledDisk : SledDisk where
  identities := []
  sessions := []
  prekeys := []
  signed_prekeys := []
  sender_keys := []
  sync_keys := []
  app_state_versions := []
  mutation_macs := []
  mutation_mac_indexes := []
  device_data := none
  device_id_counter := none
  skdm_recipients := []
  lid_mappings := []
  pn_mappings := []
  device_list_records := []
  sender_key_forget_marks := []
  base_keys := []

/-- The opened store: the bound trees plus the in-memory `AtomicI32`
device-id counter loaded at `open` (i32 wraparound is not modelled). -/
structure SledStoreM where
  disk : SledDisk
  device_id : Int
  deriving DecidableEq, Repr

/-- `SledStore::open` (`sled_store.rs` lines 57-91): bind the trees and
load the persisted counter, defaulting to 0. -/
def SledStore_open (d : SledDisk) : SledStoreM :=
  { disk := d, device_id := (d.device_id_counter.getD 0) }

namespace SledStoreM

/-- `put_identity`. -/
def put_identity (s : SledStoreM) (address : String) (key : List Nat) :
    SledStoreM :=
  { s with disk := { s.disk with
      identities := alPut s.disk.identities address key } }

/-- `load_identity`. -/
def load_identity (s : SledStoreM) (address : String) : Option (List Nat) :=
  alGet s.disk.identities address

/-- `delete_identity`. -/
def delete_identity (s : SledStoreM) (address : String) : SledStoreM :=
  { s with disk := { s.disk with
      identities := alRemove s.disk.identities address } }

/-- `put_session`. -/
def put_session (s : SledStoreM) (address : String) (session : List Nat) :
    SledStoreM :=
  { s with disk := { s.disk with
      sessions := alPut s.disk.sessions address session } }

/-- `get_session`. -/
def get_session (s : SledStoreM) (address : String) : Option (List Nat) :=
  alGet s.disk.sessions address

/-- `delete_session`. -/
def delete_session (s : SledStoreM) (address : String) : SledStoreM :=
  { s with disk := { s.disk with
      sessions := alRemove s.disk.sessions address } }

/-- `store_prekey`: the value is the serialized `(record, uploaded)`
pair. -/
def store_prekey (s : SledStoreM) (id : Nat) (record : List Nat)
    (uploaded : Bool) : SledStoreM :=
  { s with disk := { s.disk with
      prekeys := alPut s.disk.prekeys id (record, uploaded) } }

/-- `load_prekey`: returns the record bytes only. -/
def load_prekey (s : SledStoreM) (id : Nat) : Option (List Nat) :=
  (alGet s.disk.prekeys id).map (·.1)

/-- `remove_prekey`. -/
def remove_prekey (s : SledStoreM) (id : Nat) : SledStoreM :=
  { s with disk := { s.disk with
      prekeys := alRemove s.disk.prekeys id } }

/-- `store_signed_prekey`. -/
def store_signed_prekey (s : SledStoreM) (id : Nat) (record : List Nat) :
    SledStoreM :=
  { s with disk := { s.disk with
      signed_prekeys := alPut s.disk.signed_prekeys id record } }

/-- `load_signed_prekey`. -/
def load_signed_prekey (s : SledStoreM) (id : Nat) : Option (List Nat) :=
  alGet s.disk.signed_prekeys id

/-- `remove_signed_prekey`. -/
def remove_signed_prekey (s : SledStoreM) (id : Nat) : SledStoreM :=
  { s with disk := { s.disk with
      signed_prekeys := alRemove s.disk.signed_prekeys id } }

/-- `put_sender_key`. -/
def put_sender_key (s : SledStoreM) (address : String) (record : List Nat) :
    SledStoreM :=
  { s with disk := { s.disk with
      sender_keys := alPut s.disk.sender_keys address record } }

/-- `get_sender_key`. -/
def get_sender_key (s : SledStoreM) (address : String) : Option (List Nat) :=
  alGet s.disk.sender_keys address

/-- `delete_sender_key`. -/
def delete_sender_key (s : SledStoreM) (address : String) : SledStoreM :=
  { s with disk := { s.disk with
      sender_keys := alRemove s.disk.sender_keys address } }

/-- `set_sync_key`. -/
def set_sync_key (s : SledStoreM) (key_id : List Nat)
    (key : AppStateSyncKey) : SledStoreM :=
  { s with disk := { s.disk with
      sync_keys := alPut s.disk.sync_keys key_id key } }

/-- `get_sync_key`. -/
def get_sync_key (s : SledStoreM) (key_id : List Nat) :
    Option AppStateSyncKey :=
  alGet s.disk.sync_keys key_id

/-- `set_version`. -/
def set_version (s : SledStoreM) (name : String) (state : HashState) :
    SledStoreM :=
  { s with disk := { s.disk with
      app_state_versions := alPut s.disk.app_state_versions name state } }

/-- `get_version`: absent names yield `HashState::default()`, not an
error. -/
def get_version (s : SledStoreM) (name : String) : HashState :=
  (alGet s.disk.app_state_versions name).getD HashState.defaultState

/-- `get_skdm_recipients`: absent groups yield the empty list. -/
def get_skdm_recipients (s : SledStoreM) (group_jid : String) :
    List String :=
  (alGet s.disk.skdm_recipients group_jid).getD []

/-- `add_skdm_recipients`: extend the current list and store it back. -/
def add_skdm_recipients (s : SledStoreM) (group_jid : String)
    (device_jids : List String) : SledStoreM :=
  { s with disk := { s.disk with
      skdm_recipients := alPut s.disk.skdm_recipients group_jid
        (s.get_skdm_recipients group_jid ++ device_jids) } }

/-- `clear_skdm_recipients`. -/
def clear_skdm_recipients (s : SledStoreM) (group_jid : String) :
    SledStoreM :=
  { s with disk := { s.disk with
      skdm_recipients := alRemove s.disk.skdm_recipients group_jid } }

/-- `put_lid_mapping`: maintain both the phone→LID and the LID→record
indices. -/
def put_lid_mapping (s : SledStoreM) (entry : LidPnMappingEntry) :
    SledStoreM :=
  { s with disk := { s.disk with
      pn_mappings := alPut s.disk.pn_mappings entry.phone_number entry.lid,
      lid_mappings := alPut s.disk.lid_mappings entry.lid entry } }

/-- `get_lid_mapping`. -/
def get_lid_mapping (s : SledStoreM) (lid : String) :
    Option LidPnMappingEntry :=
  alGet s.disk.lid_mappings lid

/-- `get_pn_mapping`: dereference the phone→LID index. -/
def get_pn_mapping (s : SledStoreM) (phone : String) :
    Option LidPnMappingEntry :=
  match alGet s.disk.pn_mappings phone with
  | some lid => s.get_lid_mapping lid
  | none => none

/-- `save_base_key` (keyed by `address:message_id`). -/
def save_base_key (s : SledStoreM) (address message_id : String)
    (base_key : List Nat) : SledStoreM :=
  { s with disk := { s.disk with
      base_keys := alPut s.disk.base_keys (address ++ ":" ++ message_id)
        base_key } }

/-- `has_same_base_key`: absent keys yield `false`, not an error. -/
def has_same_base_key (s : SledStoreM) (address message_id : String)
    (current_base_key : List Nat) : Bool :=
  match alGet s.disk.base_keys (address ++ ":" ++ message_id) with
  | some v => v == current_base_key
  | none => false

/-- `delete_base_key`. -/
def delete_base_key (s : SledStoreM) (address message_id : String) :
    SledStoreM :=
  { s with disk := { s.disk with
      base_keys := alRemove s.disk.base_keys
        (address ++ ":" ++ message_id) } }

/-- `update_device_list` (keyed by the record's user). -/
def update_device_list (s : SledStoreM) (record : DeviceListRecord) :
    SledStoreM :=
  { s with disk := { s.disk with
      device_list_records := alPut s.disk.device_list_records record.user
        record } }

/-- `get_devices`. -/
def get_devices (s : SledStoreM) (user : String) :
    Option DeviceListRecord :=
  alGet s.disk.device_list_records user

/-- `mark_forget_sender_key` (keyed by `group_jid:participant`, value
`[1]`). -/
def mark_forget_sender_key (s : SledStoreM) (group_jid participant : String) :
    SledStoreM :=
  { s with disk := { s.disk with
      sender_key_forget_marks := alPut s.disk.sender_key_forget_marks
        (group_jid ++ ":" ++ participant) [1] } }

/-- `consume_forget_marks`: atomically return and clear every mark whose
key has the group's `group_jid:` prefix, stripping that prefix. -/
def consume_forget_marks (s : SledStoreM) (group_jid : String) :
    List String × SledStoreM :=
  let pre := group_jid ++ ":"
  let matched := s.disk.sender_key_forget_marks.filter
    (fun kv => str_starts_with kv.1 pre)
  (matched.map (fun kv => (⟨kv.1.data.drop pre.data.length⟩ : String)),
    { s with disk := { s.disk with
        sender_key_forget_marks := s.disk.sender_key_forget_marks.filter
          (fun kv => !(str_starts_with kv.1 pre)) } })

/-- `DeviceStore::save`. -/
def save (s : SledStoreM) (device : List Nat) : SledStoreM :=
  { s with disk := { s.disk with device_data := some device } }

/-- `DeviceStore::load`. -/
def load (s : SledStoreM) : Option (List Nat) := s.disk.device_data

/-- `DeviceStore::exists`. -/
def store_exists (s : SledStoreM) : Bool := s.disk.device_data.isSome

/-- `DeviceStore::create` (`sled_store.rs` lines 491-500): return the
current counter, bump it, and persist the successor. -/
def create (s : SledStoreM) : Int × SledStoreM :=
  let id := s.device_id
  (id,
    { s with
        device_id := s.device_id + 1,
        disk := { s.disk with device_id_counter := some (id + 1) } })

end SledStoreM

/-- C8: for every record family of `SledStore`, a put/store followed by
the corresponding get/load returns the stored data unchanged; after a
remove/delete the get/load reports absent (`none`, or the documented
default), not an error; the stored records and the device-id counter
survive a close-and-reopen cycle; and `DeviceStore::create` on a fresh
store returns 0 while the first create after reopening returns 1, so
device ids never repeat across restarts. -/
theorem C8_sled_persistence :
    (∀ (s : SledStoreM) (a : String) (k : List Nat),
      (s.put_identity a k).load_identity a = some k) ∧
    (∀ (s : SledStoreM) (a : String),
      (s.delete_identity a).load_identity a = none) ∧
    (∀ (s : SledStoreM) (a : String) (v : List Nat),
      (s.put_session a v).get_session a = some v) ∧
    (∀ (s : SledStoreM) (a : String),
      (s.delete_session a).get_session a = none) ∧
    (∀ (s : SledStoreM) (id : Nat) (r : List Nat) (u : Bool),
      (s.store_prekey id r u).load_prekey id = some r) ∧
    (∀ (s : SledStoreM) (id : Nat),
      (s.remove_prekey id).load_prekey id = none) ∧
    (∀ (s : SledStoreM) (id : Nat) (r : List Nat),
      (s.store_signed_prekey id r).load_signed_prekey id = some r) ∧
    (∀ (s : SledStoreM) (id : Nat),
      (s.remove_signed_prekey id).load_signed_prekey id = none) ∧
    (∀ (s : SledStoreM) (a : String) (r : List Nat),
      (s.put_sender_key a r).get_sender_key a = some r) ∧
    (∀ (s : SledStoreM) (a : String),
      (s.delete_sender_key a).get_sender_key a = none) ∧
    (∀ (s : SledStoreM) (kid : List Nat) (k : AppStateSyncKey),
      (s.set_sync_key kid k).get_sync_key kid = some k) ∧
    (∀ (name : String),
      (SledStore_open emptySledDisk).get_version name
        = HashState.defaultState) ∧
    (∀ (s : SledStoreM) (name : String) (st : HashState),
      (s.set_version name st).get_version name = st) ∧
    (∀ (s : SledStoreM) (g : String) (ds : List String),
      (s.add_skdm_recipients g ds).get_skdm_recipients g
        = s.get_skdm_recipients g ++ ds) ∧
    (∀ (s : SledStoreM) (g : String),
      (s.clear_skdm_recipients g).get_skdm_recipients g = []) ∧
    (∀ (s : SledStoreM) (e : LidPnMappingEntry),
      (s.put_lid_mapping e).get_lid_mapping e.lid = some e) ∧
    (∀ (s : SledStoreM) (e : LidPnMappingEntry),
      (s.put_lid_mapping e).get_pn_mapping e.phone_number = some e) ∧
    (∀ (s : SledStoreM) (a m : String) (k : List Nat),
      (s.save_base_key a m k).has_same_base_key a m k = true) ∧
    (∀ (s : SledStoreM) (a m : String) (k : List Nat),
      (s.delete_base_key a m).has_same_base_key a m k = false) ∧
    (∀ (s : SledStoreM) (r : DeviceListRecord),
      (s.update_device_list r).get_devices r.user = some r) ∧
    (∀ (s : SledStoreM) (g p : String),
      s.disk.sender_key_forget_marks = [] →
      ((s.mark_forget_sender_key g p).consume_forget_marks g).1 = [p] ∧
      (((s.mark_forget_sender_key g p).consume_forget_marks
        g).2.consume_forget_marks g).1 = []) ∧
    (∀ (s : SledStoreM) (d : List Nat),
      (s.save d).load = some d ∧ (s.save d).store_exists = true) ∧
    ((SledStore_open emptySledDisk).load = none ∧
      (SledStore_open emptySledDisk).store_exists = false) ∧
    (∀ (s : SledStoreM), (SledStore_open s.disk).disk = s.disk) ∧
    (∀ (s : SledStoreM),
      (SledStore_open ((s.create).2).disk).device_id = s.device_id + 1) ∧
    ((SledStore_open emptySledDisk).create.1 = 0 ∧
      ((SledStore_open
        ((SledStore_open emptySledDisk).create.2.disk)).create).1 = 1) := by
  refine ⟨?_, ?_, ?_, ?_, ?_, ?_, ?_, ?_, ?_, ?_, ?_, ?_, ?_, ?_, ?_, ?_,
    ?_, ?_, ?_, ?_, ?_, ?_, ?_, ?_, ?_, ?_⟩
  · intro s a k
    exact alGet_alPut_self _ _ _
  · intro s a
    exact alGet_alRemove_self _ _
  · intro s a v
    exact alGet_alPut_self _ _ _
  · intro s a
    exact alGet_alRemove_self _ _
  · intro s id r u
    simp [SledStoreM.store_prekey, SledStoreM.load_prekey, alGet_alPut_self]
  · intro s id
    simp [SledStoreM.remove_prekey, SledStoreM.load_prekey,
      alGet_alRemove_self]
  · intro s id r
    exact alGet_alPut_self _ _ _
  · intro s id
    exact alGet_alRemove_self _ _
  · intro s a r
    exact alGet_alPut_self _ _ _
  · intro s a
    exact alGet_alRemove_self _ _
  · intro s kid k
    exact alGet_alPut_self _ _ _
  · intro name
    rfl
  · intro s name st
    simp [SledStoreM.set_version, SledStoreM.get_version, alGet_alPut_self]
  · intro s g ds
    simp [SledStoreM.add_skdm_recipients, SledStoreM.get_skdm_recipients,
      alGet_alPut_self]
  · intro s g
    simp [SledStoreM.clear_skdm_recipients, SledStoreM.get_skdm_recipients,
      alGet_alRemove_self]
  · intro s e
    exact alGet_alPut_self _ _ _
  · intro s e
    simp [SledStoreM.put_lid_mapping, SledStoreM.get_pn_mapping,
      SledStoreM.get_lid_mapping, alGet_alPut_self]
  · intro s a m k
    simp [SledStoreM.save_base_key, SledStoreM.has_same_base_key,
      alGet_alPut_self]
  · intro s a m k
    simp [SledStoreM.delete_base_key, SledStoreM.has_same_base_key,
      alGet_alRemove_self]
  · intro s r
    exact alGet_alPut_self _ _ _
  · intro s g p hmk
    constructor
    · simp only [SledStoreM.mark_forget_sender_key,
        SledStoreM.consume_forget_marks, hmk, alPut, List.filter_nil,
        List.filter_cons, str_starts_with_append (g ++ ":") p,
        Bool.not_true, if_true, List.map_cons, List.map_nil,
        List.cons.injEq, and_true]
      apply String.ext
      show (g ++ ":" ++ p).data.drop (g ++ ":").data.length = p.data
      rw [String.data_append]
      exact List.drop_left _ _
    · simp [SledStoreM.mark_forget_sender_key,
        SledStoreM.consume_forget_marks, hmk, alPut,
        str_starts_with_append (g ++ ":") p]
  · intro s d
    exact ⟨rfl, rfl⟩
  · exact ⟨rfl, rfl⟩
  · intro s
    rfl
  · intro s
    simp [SledStore_open, SledStoreM.create]
  · exact ⟨rfl, rfl⟩

/-- Witness for C8's conditional conjunct (the forget-mark flow) at a
concrete store. -/
theorem C8_sled_persistence_witness :
    (((SledStore_open emptySledDisk).mark_forget_sender_key "group1"
      "user_a").consume_forget_marks "group1").1 = ["user_a"] :=
  ((C8_sled_persistence.2.2.2.2.2.2.2.2.2.2.2.2.2.2.2.2.2.2.2.2.1
    (SledStore_open emptySledDisk) "group1" "user_a" rfl)).1

end Moltis
